import Mathlib

/-!
Verification of the tortuise splat-rendering pipeline.

The Rust sources are shallowly embedded over the reals: every `f32` value is
modelled as a real number, so floating-point rounding, overflow and NaN are
not modelled except where a claim is explicitly about them (the depth
comparator's NaN handling is modelled separately over `Option ℝ`, `none`
standing for NaN).  Machine integers (`usize`, `u32`) are modelled as `ℕ`;
the sizes involved (screen sizes, buffer capacities, counters) stay far from
the wrap-around range on every path the claims touch.

`main.rs` declares `mod math;` but `math.rs` itself is not among the staged
source files, so the math primitives (the spec's "vectors, matrices,
quaternions" component) are modelled from the spec and from their call sites;
each such definition carries a `Modelled from the spec:` doc comment.
-/

namespace Tortuise

noncomputable section

/-- Modelled from the spec: `math.rs` (declared as `mod math;`) is not in the
staged sources.  A 3-component vector of `f32`, modelled over `ℝ`. -/
structure Vec3 where
  x : ℝ
  y : ℝ
  z : ℝ

namespace Vec3

/-- Modelled from the spec: componentwise vector subtraction. -/
def sub (a b : Vec3) : Vec3 := ⟨a.x - b.x, a.y - b.y, a.z - b.z⟩

/-- Modelled from the spec: componentwise vector addition. -/
def add (a b : Vec3) : Vec3 := ⟨a.x + b.x, a.y + b.y, a.z + b.z⟩

/-- Modelled from the spec: scalar multiplication. -/
def smul (t : ℝ) (a : Vec3) : Vec3 := ⟨t * a.x, t * a.y, t * a.z⟩

/-- Modelled from the spec: the Euclidean dot product. -/
def dot (a b : Vec3) : ℝ := a.x * b.x + a.y * b.y + a.z * b.z

/-- Modelled from the spec: the cross product. -/
def cross (a b : Vec3) : Vec3 :=
  ⟨a.y * b.z - a.z * b.y, a.z * b.x - a.x * b.z, a.x * b.y - a.y * b.x⟩

/-- Modelled from the spec: squared Euclidean length. -/
def length_squared (a : Vec3) : ℝ := a.x * a.x + a.y * a.y + a.z * a.z

/-- Modelled from the spec: Euclidean length. -/
def length (a : Vec3) : ℝ := Real.sqrt a.length_squared

/-- Modelled from the spec: `v / v.length()`.  In `f32` dividing the zero
vector by its zero length yields NaN components; over `ℝ` division by zero
yields the zero vector, which the camera claims treat as the degenerate
outcome. -/
def normalize (a : Vec3) : Vec3 :=
  ⟨a.x / a.length, a.y / a.length, a.z / a.length⟩

end Vec3

/-- Modelled from the spec: clamp a blended `f32` color channel into a `u8`
("numerical overflow in color is clamped"): clamp to `[0, 255]` and truncate. -/
def clamp_u8 (v : ℝ) : ℕ := Nat.floor (min (max v 0) 255)

/-- Modelled from the spec: a quaternion `(w, x, y, z)` of `f32` components
(`[f32; 4]` in the call sites), modelled over `ℝ`. -/
structure Quat where
  w : ℝ
  x : ℝ
  y : ℝ
  z : ℝ

/-- Modelled from the spec: "quaternion is normalized on load"; divide all
four components by the quaternion's Euclidean norm. -/
def quat_normalize (q : Quat) : Quat :=
  ⟨q.w / Real.sqrt (q.w * q.w + q.x * q.x + q.y * q.y + q.z * q.z),
   q.x / Real.sqrt (q.w * q.w + q.x * q.x + q.y * q.y + q.z * q.z),
   q.y / Real.sqrt (q.w * q.w + q.x * q.x + q.y * q.y + q.z * q.z),
   q.z / Real.sqrt (q.w * q.w + q.x * q.x + q.y * q.y + q.z * q.z)⟩

/-- A 3×3 matrix of `f32`, modelled as `Fin 3 → Fin 3 → ℝ` (row, column). -/
def Mat3 := Fin 3 → Fin 3 → ℝ

/-- Modelled from the spec: the standard 3×3 matrix product, written as the
explicit three-term sums the Rust loops compute. -/
def mat3_mul (a b : Mat3) : Mat3 := fun i j =>
  a i 0 * b 0 j + a i 1 * b 1 j + a i 2 * b 2 j

/-- Modelled from the spec: matrix transposition. -/
def mat3_transpose (a : Mat3) : Mat3 := fun i j => a j i

/-- Modelled from the spec: the rotation matrix of a unit quaternion
`(w, x, y, z)`, in the standard form. -/
def quat_to_rotation_matrix (q : Quat) : Mat3 :=
  ![![1 - 2 * (q.y * q.y + q.z * q.z), 2 * (q.x * q.y - q.w * q.z),
      2 * (q.x * q.z + q.w * q.y)],
    ![2 * (q.x * q.y + q.w * q.z), 1 - 2 * (q.x * q.x + q.z * q.z),
      2 * (q.y * q.z - q.w * q.x)],
    ![2 * (q.x * q.z - q.w * q.y), 2 * (q.y * q.z + q.w * q.x),
      1 - 2 * (q.x * q.x + q.y * q.y)]]

/-- Modelled from the spec: Rust's `f32::atan2(y, x)`, the angle of the point
`(x, y)` in `(-π, π]`, with `atan2 0 0 = 0`; modelled as the complex
argument of `x + y·i`. -/
def atan2 (y x : ℝ) : ℝ := Complex.arg ⟨x, y⟩

/-- Modelled from the spec: Rust's `f32::clamp(lo, hi)`. -/
def rclamp (v lo hi : ℝ) : ℝ := min (max v lo) hi

/-- Modelled from the spec: `f32::floor`, as a real-valued function. -/
def rfloor (v : ℝ) : ℝ := (⌊v⌋ : ℝ)

/-- Modelled from the spec: `f32::ceil`, as a real-valued function. -/
def rceil (v : ℝ) : ℝ := (⌈v⌉ : ℝ)

/-- Modelled from the spec: an `f32` cast `as usize`: truncation toward zero,
saturating at 0 for negative values.  Every cast site in the rasterizer feeds
it an integer-valued float (an output of `floor`/`ceil`, possibly clamped by
`min`/`max` against integers), where truncation and `Int.floor` agree. -/
def f32_to_usize (v : ℝ) : ℕ := (⌊v⌋).toNat

/-! ## camera.rs -/

/-- The `Camera` record of `camera.rs`. -/
structure Camera where
  position : Vec3
  forward : Vec3
  right : Vec3
  up : Vec3
  yaw : ℝ
  pitch : ℝ
  fov : ℝ
  near : ℝ
  far : ℝ

/-- `Camera::update_vectors`: recompute the basis from `yaw`/`pitch`.  Note
that `up` is computed from the *unreplaced* `right` before the degeneracy
check, exactly as the source does. -/
def Camera.update_vectors (c : Camera) : Camera :=
  let forward :=
    Vec3.normalize
      ⟨Real.cos c.yaw * Real.cos c.pitch, Real.sin c.pitch,
       Real.sin c.yaw * Real.cos c.pitch⟩
  let world_up : Vec3 := ⟨0, 1, 0⟩
  let right := (forward.cross world_up).normalize
  let up := (right.cross forward).normalize
  { c with
    forward := forward
    right := if right.length_squared < 1e-6 then ⟨1, 0, 0⟩ else right
    up := up }

/-- `Camera::new`. -/
def Camera.new (position : Vec3) (yaw pitch : ℝ) : Camera :=
  Camera.update_vectors
    { position := position, forward := ⟨0, 0, -1⟩, right := ⟨1, 0, 0⟩,
      up := ⟨0, 1, 0⟩, yaw := yaw, pitch := pitch, fov := Real.pi / 3,
      near := 0.1, far := 1000 }

/-- `Camera::world_to_view`. -/
def Camera.world_to_view (c : Camera) (point : Vec3) : Vec3 :=
  let rel := point.sub c.position
  ⟨rel.dot c.right, rel.dot c.up, rel.dot c.forward⟩

/-- `Camera::view_rotation`: the basis as a row matrix. -/
def Camera.view_rotation (c : Camera) : Mat3 :=
  ![![c.right.x, c.right.y, c.right.z],
    ![c.up.x, c.up.y, c.up.z],
    ![c.forward.x, c.forward.y, c.forward.z]]

/-- `Camera::focal_lengths`. -/
def Camera.focal_lengths (c : Camera) (width height : ℕ) : ℝ × ℝ :=
  let h := ((max height 1 : ℕ) : ℝ)
  let w := ((max width 1 : ℕ) : ℝ)
  let tan_half := max (Real.tan (c.fov * 0.5)) 1e-6
  let fy := h / (2 * tan_half)
  let fx := fy * (w / h)
  (fx, fy)

/-- `adjust_pitch`. -/
def adjust_pitch (c : Camera) (delta : ℝ) : Camera :=
  Camera.update_vectors { c with pitch := rclamp (c.pitch + delta) (-1.5) 1.5 }

/-- `adjust_yaw`. -/
def adjust_yaw (c : Camera) (delta : ℝ) : Camera :=
  Camera.update_vectors { c with yaw := c.yaw + delta }

/-- `look_at_target`. -/
def look_at_target (c : Camera) (target : Vec3) : Camera :=
  let to_target := (target.sub c.position).normalize
  if to_target.length_squared < 1e-8 then c
  else
    Camera.update_vectors
      { c with yaw := atan2 to_target.z to_target.x,
               pitch := Real.arcsin (rclamp to_target.y (-1) 1) }

/-! ## splat.rs -/

/-- `GAUSSIAN_SIGMA_CUTOFF` of `splat.rs`. -/
def GAUSSIAN_SIGMA_CUTOFF : ℝ := 4.0

/-- `MIN_SPLAT_RADIUS` of `splat.rs`. -/
def MIN_SPLAT_RADIUS : ℝ := 0.3

/-- `MIN_GAUSSIAN_CONTRIBUTION` of `splat.rs`. -/
def MIN_GAUSSIAN_CONTRIBUTION : ℝ := 0.001

/-- `SATURATION_EPSILON` of `splat.rs`. -/
def SATURATION_EPSILON : ℝ := 0.999

/-- The `Splat` record of `splat.rs`; the three `u8` color channels are
modelled as naturals. -/
structure Splat where
  position : Vec3
  color : ℕ × ℕ × ℕ
  opacity : ℝ
  scale : Vec3
  rotation : Quat

/-- The `ProjectedSplat` record of `splat.rs`. -/
structure ProjectedSplat where
  screen_x : ℝ
  screen_y : ℝ
  depth : ℝ
  radius_x : ℝ
  radius_y : ℝ
  color : ℕ × ℕ × ℕ
  opacity : ℝ
  inv_cov_a : ℝ
  inv_cov_b : ℝ
  inv_cov_c : ℝ
  original_index : ℕ

/-- `compute_3d_covariance`: `R · diag(max(scale,1e-4)²) · Rᵀ`. -/
def compute_3d_covariance (scale : Vec3) (rotation : Quat) : Mat3 :=
  let r := quat_to_rotation_matrix rotation
  let s0 := max scale.x 1e-4 * max scale.x 1e-4
  let s1 := max scale.y 1e-4 * max scale.y 1e-4
  let s2 := max scale.z 1e-4 * max scale.z 1e-4
  let d : Mat3 := ![![s0, 0, 0], ![0, s1, 0], ![0, 0, s2]]
  mat3_mul (mat3_mul r d) (mat3_transpose r)

/-- `project_covariance_to_2d`: rotate the 3D covariance into view space,
push it through the perspective Jacobian, and stabilize the diagonal. -/
def project_covariance_to_2d (cov_3d : Mat3) (camera : Camera)
    (point_view : Vec3) (fx fy : ℝ) : ℝ × ℝ × ℝ :=
  let view_rot := camera.view_rotation
  let cov_view := mat3_mul (mat3_mul view_rot cov_3d) (mat3_transpose view_rot)
  let z := max point_view.z 1e-4
  let inv_z := 1 / z
  let inv_z2 := inv_z * inv_z
  let jac : Fin 2 → Fin 3 → ℝ :=
    ![![fx * inv_z, 0, -fx * point_view.x * inv_z2],
      ![0, fy * inv_z, -fy * point_view.y * inv_z2]]
  let j_cov : Fin 2 → Fin 3 → ℝ := fun row col =>
    jac row 0 * cov_view 0 col + jac row 1 * cov_view 1 col +
      jac row 2 * cov_view 2 col
  let cov_a := j_cov 0 0 * jac 0 0 + j_cov 0 1 * jac 0 1 + j_cov 0 2 * jac 0 2
  let cov_b := j_cov 0 0 * jac 1 0 + j_cov 0 1 * jac 1 1 + j_cov 0 2 * jac 1 2
  let cov_c := j_cov 1 0 * jac 1 0 + j_cov 1 1 * jac 1 1 + j_cov 1 2 * jac 1 2
  (cov_a + 1e-3, cov_b, cov_c + 1e-3)

/-- `compute_2d_gaussian_extent`: 4-σ extent from the top eigenvalue. -/
def compute_2d_gaussian_extent (cov_a cov_b cov_c : ℝ) : ℝ × ℝ :=
  let trace := cov_a + cov_c
  let det := cov_a * cov_c - cov_b * cov_b
  let disc := Real.sqrt (max (trace * trace - 4 * det) 0)
  let lambda1 := 0.5 * (trace + disc)
  let extent := GAUSSIAN_SIGMA_CUTOFF * Real.sqrt (max lambda1 0)
  (extent, extent)

/-- `invert_2x2_covariance`. -/
def invert_2x2_covariance (cov_a cov_b cov_c : ℝ) : Option (ℝ × ℝ × ℝ) :=
  let det := cov_a * cov_c - cov_b * cov_b
  if |det| < 1e-8 then none
  else some (cov_c * (1 / det), -cov_b * (1 / det), cov_a * (1 / det))

/-- `evaluate_2d_gaussian`: the Gaussian falloff with the `q > 32` cutoff. -/
def evaluate_2d_gaussian (dx dy inv_cov_a inv_cov_b inv_cov_c : ℝ) : ℝ :=
  let q := dx * dx * inv_cov_a + 2 * dx * dy * inv_cov_b + dy * dy * inv_cov_c
  if q > 32 then 0 else Real.exp (-0.5 * q)

/-! ## render/pipeline.rs -/

/-- `BROAD_MARGIN` of `project_and_cull_splats`. -/
def BROAD_MARGIN : ℝ := 120.0

/-- The per-splat body of `project_and_cull_splats` (the `filter_map`
closure): project one splat with index `i`, returning `none` when any of the
culling guards discards it.  The source's `is_finite` guard never fires over
`ℝ`, where every value is finite. -/
def projectSplat (camera : Camera) (screen_width screen_height : ℕ)
    (i : ℕ) (splat : Splat) : Option ProjectedSplat :=
  let fx := (camera.focal_lengths screen_width screen_height).1
  let fy := (camera.focal_lengths screen_width screen_height).2
  let half_w := (screen_width : ℝ) * 0.5
  let half_h := (screen_height : ℝ) * 0.5
  let sw := (screen_width : ℝ)
  let sh := (screen_height : ℝ)
  let view_pos := camera.world_to_view splat.position
  if view_pos.z < camera.near ∨ view_pos.z > camera.far then none
  else
    let inv_z := 1 / max view_pos.z 1e-5
    let screen_x := half_w + view_pos.x * fx * inv_z
    let screen_y := half_h - view_pos.y * fy * inv_z
    if screen_x < -BROAD_MARGIN ∨ screen_x > sw + BROAD_MARGIN ∨
        screen_y < -BROAD_MARGIN ∨ screen_y > sh + BROAD_MARGIN then none
    else
      let cov_3d := compute_3d_covariance splat.scale splat.rotation
      let cov := project_covariance_to_2d cov_3d camera view_pos fx fy
      let cov_a := cov.1
      let cov_b := cov.2.1
      let cov_c := cov.2.2
      if cov_a ≤ 0 ∨ cov_c ≤ 0 then none
      else
        let ext := compute_2d_gaussian_extent cov_a cov_b cov_c
        let radius_x := ext.1
        let radius_y := ext.2
        if radius_x < MIN_SPLAT_RADIUS ∨ radius_y < MIN_SPLAT_RADIUS then none
        else if screen_x + radius_x < 0 ∨ screen_x - radius_x > sw ∨
            screen_y + radius_y < 0 ∨ screen_y - radius_y > sh then none
        else
          match invert_2x2_covariance cov_a cov_b cov_c with
          | none => none
          | some inv =>
            some
              { screen_x := screen_x, screen_y := screen_y,
                depth := view_pos.z, radius_x := radius_x,
                radius_y := radius_y, color := splat.color,
                opacity := splat.opacity, inv_cov_a := inv.1,
                inv_cov_b := inv.2.1, inv_cov_c := inv.2.2,
                original_index := i }

/-- `project_and_cull_splats`: an order-preserving parallel filter-and-collect
over the enumerated splats ("Output order is preserved"). -/
def project_and_cull_splats (splats : List Splat) (camera : Camera)
    (screen_width screen_height : ℕ) : List ProjectedSplat :=
  (splats.enum).filterMap fun p =>
    projectSplat camera screen_width screen_height p.1 p.2

/-! ## sort.rs -/

/-- Rust's `f32::partial_cmp` restricted to what `sort_by_depth`'s comparator
feeds it: `none` stands for an NaN operand, for which `partial_cmp` is
`None`. -/
def f32cmp : Option ℝ → Option ℝ → Option Ordering
  | some a, some b => some (compare a b)
  | _, _ => none

/-- The comparator of `sort_by_depth`:
`a.depth.partial_cmp(&b.depth).unwrap_or(Ordering::Equal)`. -/
def sortOrdering (a b : Option ℝ) : Ordering := (f32cmp a b).getD Ordering.eq

/-- The order induced by the comparator: `a` may precede `b` when comparing
their depths does not say `Greater`. -/
def depthLe (a b : ProjectedSplat) : Prop :=
  sortOrdering (some a.depth) (some b.depth) ≠ Ordering.gt

instance : DecidableRel depthLe := fun a b => by
  unfold depthLe
  infer_instance

/-- `sort_by_depth`.  `par_sort_unstable_by` is the standard library's
comparison sort (not part of this repository); it is modelled as a
comparison sort — insertion sort — driven by the source's comparator. -/
def sort_by_depth (projected_splats : List ProjectedSplat) : List ProjectedSplat :=
  List.insertionSort depthLe projected_splats

/-! ## render/rasterizer.rs -/

/-- The `RenderState` record of `render/mod.rs`; the three parallel `Vec`s are
modelled as index-to-value functions, and the cleared depth value
`f32::INFINITY` as `⊤` in `WithTop ℝ`. -/
structure RenderState where
  framebuffer : ℕ → ℕ × ℕ × ℕ
  alpha_buffer : ℕ → ℝ
  depth_buffer : ℕ → WithTop ℝ
  width : ℕ
  height : ℕ

/-- `clear_framebuffer` of `render/pipeline.rs`. -/
def clear_framebuffer (rs : RenderState) : RenderState :=
  { rs with framebuffer := fun _ => (0, 0, 0), alpha_buffer := fun _ => 0,
            depth_buffer := fun _ => ⊤ }

/-- `blend_component`. -/
def blend_component (existing new : ℕ) (weight : ℝ) : ℕ :=
  clamp_u8 ((existing : ℝ) + (new : ℝ) * weight)

/-- The innermost loop body of `rasterize_splats`: blend one splat into the
pixel `(x, y)`. -/
def rasterize_pixel (splat : ProjectedSplat) (width : ℕ) (x y : ℕ)
    (rs : RenderState) : RenderState :=
  let idx := y * width + x
  let existing_alpha := rs.alpha_buffer idx
  if SATURATION_EPSILON ≤ existing_alpha then rs
  else
    let dx := (x : ℝ) + 0.5 - splat.screen_x
    let dy := (y : ℝ) + 0.5 - splat.screen_y
    let gaussian :=
      evaluate_2d_gaussian dx dy splat.inv_cov_a splat.inv_cov_b splat.inv_cov_c
    if gaussian < MIN_GAUSSIAN_CONTRIBUTION then rs
    else
      let alpha := splat.opacity * gaussian
      if alpha ≤ 0 then rs
      else
        let weight := alpha * (1 - existing_alpha)
        if weight < 1e-4 then rs
        else
          let px := rs.framebuffer idx
          let new_px := (blend_component px.1 splat.color.1 weight,
                         blend_component px.2.1 splat.color.2.1 weight,
                         blend_component px.2.2 splat.color.2.2 weight)
          let new_alpha := min (existing_alpha + weight) 1
          { rs with
            framebuffer := fun j => if j = idx then new_px else rs.framebuffer j,
            alpha_buffer := fun j => if j = idx then new_alpha else rs.alpha_buffer j,
            depth_buffer := fun j =>
              if j = idx ∧ SATURATION_EPSILON ≤ new_alpha then (splat.depth : WithTop ℝ)
              else rs.depth_buffer j }

/-- One row `y` of a splat's clipped bounding box, pixels `min_x..=max_x`. -/
def rasterize_row (splat : ProjectedSplat) (width : ℕ) (y min_x max_x : ℕ)
    (rs : RenderState) : RenderState :=
  (List.range (max_x + 1 - min_x)).foldl
    (fun st k => rasterize_pixel splat width (min_x + k) y st) rs

/-- The per-splat body of `rasterize_splats`: clip the splat's AABB to the
screen and blend every pixel inside it, rows in increasing `y`, pixels in
increasing `x`.  This is the one-band instance of the banded loop: bands
partition the rows disjointly, each band processes its binned splats in
input order, and a pixel's buffers are only ever touched by its own band, so
the per-pixel result equals the single-band run's. -/
def rasterize_one_splat (splat : ProjectedSplat) (width height : ℕ)
    (rs : RenderState) : RenderState :=
  let min_x := f32_to_usize (max (rfloor (splat.screen_x - splat.radius_x)) 0)
  let max_x := f32_to_usize (min (rceil (splat.screen_x + splat.radius_x)) ((width - 1 : ℕ) : ℝ))
  let min_y := f32_to_usize (max (rfloor (splat.screen_y - splat.radius_y)) 0)
  let max_y := f32_to_usize (min (rceil (splat.screen_y + splat.radius_y)) ((height - 1 : ℕ) : ℝ))
  if max_x < min_x ∨ max_y < min_y then rs
  else
    (List.range (max_y + 1 - min_y)).foldl
      (fun st k => rasterize_row splat width (min_y + k) min_x max_x st) rs

/-- `rasterize_splats`: front-to-back blending of the depth-sorted splats. -/
def rasterize_splats (projected_splats : List ProjectedSplat)
    (rs : RenderState) (width height : ℕ) : RenderState :=
  if width = 0 ∨ height = 0 ∨ projected_splats.isEmpty then rs
  else
    projected_splats.foldl (fun st s => rasterize_one_splat s width height st) rs

/-! ## parser/dot_splat.rs -/

/-- The two parse errors `load_splat_file` can fail with (the source returns
them as strings; the string contents carry no further structure):
`notMultipleOf32` is the "size … is not a multiple of 32 bytes" error and
`fileTooSmall` is the "SPLAT parse error: file too small" error. -/
inductive SplatFileError where
  | notMultipleOf32 : SplatFileError
  | fileTooSmall : SplatFileError
deriving DecidableEq

/-- `decode_scale_value`. -/
def decode_scale_value (v : ℝ) : ℝ :=
  if v > 0 then v else max (Real.exp v) 1e-4

/-- `read_vec3_f32`, parameterized by the little-endian `f32` decoder
`f32le` (four bytes to the decoded value); the bit-level `f32` decoding is
outside the real-number embedding, so the decoder is kept abstract. -/
def read_vec3_f32 (f32le : ℕ → ℕ → ℕ → ℕ → ℝ) (bytes : List ℕ) : Vec3 :=
  ⟨f32le (bytes.getD 0 0) (bytes.getD 1 0) (bytes.getD 2 0) (bytes.getD 3 0),
   f32le (bytes.getD 4 0) (bytes.getD 5 0) (bytes.getD 6 0) (bytes.getD 7 0),
   f32le (bytes.getD 8 0) (bytes.getD 9 0) (bytes.getD 10 0) (bytes.getD 11 0)⟩

/-- `chunks_exact(n)`: the maximal list of disjoint length-`n` chunks. -/
def chunksExact {α : Type} (n : ℕ) (l : List α) : List (List α) :=
  if _h : 0 < n ∧ n ≤ l.length then
    l.take n :: chunksExact n (l.drop n)
  else []
termination_by l.length
decreasing_by
  simp only [List.length_drop]
  omega

/-- The per-record body of `load_splat_file`'s loop. -/
def parseSplatRecord (f32le : ℕ → ℕ → ℕ → ℕ → ℝ) (chunk : List ℕ) : Splat :=
  let b := fun i => chunk.getD i 0
  let position := read_vec3_f32 f32le (chunk.take 12)
  let scale_raw := read_vec3_f32 f32le ((chunk.drop 12).take 12)
  let color := (b 24, b 25, b 26)
  let opacity := rclamp ((b 27 : ℝ) / 255) 0 1
  let rotation := quat_normalize
    ⟨(b 28 : ℝ) / 127.5 - 1, (b 29 : ℝ) / 127.5 - 1,
     (b 30 : ℝ) / 127.5 - 1, (b 31 : ℝ) / 127.5 - 1⟩
  let scale := Vec3.mk (decode_scale_value scale_raw.x)
    (decode_scale_value scale_raw.y) (decode_scale_value scale_raw.z)
  { position := position, color := color, opacity := opacity,
    scale := scale, rotation := rotation }

/-- `load_splat_file` on the bytes read from the file (the `fs::read` I/O and
its error are outside the model).  The two validation branches appear in the
source's order: the multiple-of-32 check runs before the too-small check. -/
def load_splat_file (f32le : ℕ → ℕ → ℕ → ℕ → ℝ) (data : List ℕ) :
    Except SplatFileError (List Splat) :=
  if data.length % 32 ≠ 0 then Except.error SplatFileError.notMultipleOf32
  else if data.length < 32 then Except.error SplatFileError.fileTooSmall
  else Except.ok ((chunksExact 32 data).map (parseSplatRecord f32le))

end

/-! ## render/metal: the orchestrator's buffer and retry state machine

The GPU kernels themselves run on the device; what `render.rs` and
`buffers.rs` contribute — and what the claims are about — is the host-side
state machine: precondition checks, buffer-capacity bookkeeping, the
overflow-retry loop and the shrink heuristic.  The outcome of one submitted
attempt (`run_single_render_attempt`) is GPU-data-dependent, so it is taken
as an oracle parameter: attempt number `k` yields either an error (timeout /
command-buffer failure, which `commit_and_wait_or_disable_gpu` turns into
`gpu_disabled`) or an `(overflow_flag, total_overlaps)` pair together with
the framebuffer contents the GPU wrote.  The attempt itself touches none of
the fields modelled here except the framebuffer (its histogram/block-sums
scratch capacities are omitted: no claim mentions them). -/

/-- `MetalRenderError` of `render/metal/error.rs`; the string payloads of
`Other` carry no structure the claims use and are dropped. -/
inductive MetalRenderError where
  | gpuDisabled : MetalRenderError
  | timeout : MetalRenderError
  | commandBufferFailed : MetalRenderError
  | overflowDeferred (requested_capacity : ℕ) (overlaps : ℕ) : MetalRenderError
  | other : MetalRenderError
deriving DecidableEq

/-- `MetalRenderError::should_disable_gpu`. -/
def should_disable_gpu : MetalRenderError → Bool
  | MetalRenderError.gpuDisabled => true
  | MetalRenderError.timeout => true
  | MetalRenderError.commandBufferFailed => true
  | _ => false

/-- The claims-relevant fields of the `MetalBackend` struct: the buffer
capacities and bookkeeping scalars (GPU device objects and scratch
capacities are not modelled; the shared framebuffer is an index-to-word
map). -/
structure MetalBackendState where
  max_splats : ℕ
  tile_capacity : ℕ
  sort_capacity : ℕ
  framebuffer_capacity_pixels : ℕ
  splats_uploaded : Bool
  previous_total_overlaps : ℕ
  last_render_width : ℕ
  last_render_height : ℕ
  frames_below_threshold : ℕ
  gpu_disabled : Bool
  framebuffer : ℕ → ℕ

/-- `RenderAttemptResult` of `render/metal/render.rs`. -/
structure RenderAttemptResult where
  overflow_flag : ℕ
  total_overlaps : ℕ

/-- `usize::next_power_of_two`: the least power of two that is `≥ self`
(`1` for `0`), written via `Nat.clog`. -/
def next_power_of_two (n : ℕ) : ℕ := 2 ^ Nat.clog 2 n

/-- `div_ceil_u32` of `render/metal/sort.rs` (`u32::div_ceil`). -/
def div_ceil_u32 (value divisor : ℕ) : ℕ := (value + divisor - 1) / divisor

/-- `MetalBackend::ensure_framebuffer_capacity`: growing reallocates the
shared buffer (fresh shared Metal buffers are zero-filled). -/
def ensure_framebuffer_capacity (st : MetalBackendState)
    (screen_width screen_height : ℕ) : MetalBackendState :=
  let pixels := screen_width * screen_height
  if st.framebuffer_capacity_pixels < pixels then
    { st with framebuffer_capacity_pixels := pixels, framebuffer := fun _ => 0 }
  else st

/-- `MetalBackend::ensure_tile_capacity`. -/
def ensure_tile_capacity (st : MetalBackendState) (num_tiles : ℕ) :
    MetalBackendState :=
  if num_tiles ≤ st.tile_capacity then st
  else { st with tile_capacity := num_tiles }

/-- `MetalBackend::ensure_sort_capacity` (growing goes through
`reallocate_sort_buffers`, which records the new capacity). -/
def ensure_sort_capacity (st : MetalBackendState) (overlaps : ℕ) :
    MetalBackendState :=
  if overlaps ≤ st.sort_capacity then st
  else { st with sort_capacity := next_power_of_two overlaps }

/-- `MetalBackend::ensure_sort_capacity_with_headroom`. -/
def ensure_sort_capacity_with_headroom (st : MetalBackendState)
    (required_overlaps headroom_factor_num headroom_factor_den : ℕ) :
    MetalBackendState :=
  let den := max headroom_factor_den 1
  let headroom := (required_overlaps * headroom_factor_num + den - 1) / den
  ensure_sort_capacity st (max headroom 1)

/-- `MetalBackend::maybe_shrink_sort_capacity`. -/
def maybe_shrink_sort_capacity (st : MetalBackendState) (actual_overlaps : ℕ) :
    MetalBackendState :=
  if st.sort_capacity ≤ 1 then { st with frames_below_threshold := 0 }
  else
    let shrink_threshold := st.sort_capacity / 2
    if actual_overlaps < shrink_threshold then
      if 60 ≤ st.frames_below_threshold + 1 then
        let new_capacity := max (st.sort_capacity / 2) 1
        if actual_overlaps ≤ new_capacity then
          { st with sort_capacity := new_capacity, frames_below_threshold := 0 }
        else { st with frames_below_threshold := 0 }
      else { st with frames_below_threshold := st.frames_below_threshold + 1 }
    else { st with frames_below_threshold := 0 }

/-- One attempt's outcome, as seen by the retry loop. -/
def AttemptOracle : Type :=
  ℕ → Except MetalRenderError (RenderAttemptResult × (ℕ → ℕ))

/-- The `loop` of `MetalBackend::render`, from `attempt = 0`.  Besides the
final state and result it returns, as a ghost observation, the list of
`sort_capacity` values in force at each submission. -/
def render_metal_loop (oracle : AttemptOracle) (splat_count : ℕ)
    (st : MetalBackendState) (attempt : ℕ) (subs : List ℕ) :
    MetalBackendState × Except MetalRenderError Unit × List ℕ :=
  let estimated_overlaps :=
    max (if 0 < st.previous_total_overlaps then
          max (st.previous_total_overlaps * 2) (splat_count * 4)
        else splat_count * 8) 1
  let st1 := ensure_sort_capacity_with_headroom st estimated_overlaps 2 1
  match oracle attempt with
  | Except.error e =>
      ({ st1 with gpu_disabled := st1.gpu_disabled || should_disable_gpu e },
        Except.error e, subs ++ [st1.sort_capacity])
  | Except.ok (result, fb) =>
      let st2 := { st1 with previous_total_overlaps := result.total_overlaps,
                            framebuffer := fb }
      let subs2 := subs ++ [st1.sort_capacity]
      if result.overflow_flag = 0 then
        (maybe_shrink_sort_capacity st2 result.total_overlaps, Except.ok (), subs2)
      else if _h : 1 ≤ attempt then
        let growth_target := max (result.total_overlaps * 2) 1
        (ensure_sort_capacity st2 growth_target,
          Except.error (MetalRenderError.overflowDeferred growth_target
            result.total_overlaps), subs2)
      else
        let retry_target := max (result.total_overlaps * 2) 1
        render_metal_loop oracle splat_count
          (ensure_sort_capacity st2 retry_target) (attempt + 1) subs2
termination_by 2 - attempt
decreasing_by
  omega

/-- `MetalBackend::render`: precondition checks, buffer sizing, the retry
loop, and the recording of the last render dimensions. -/
def render_metal (st : MetalBackendState) (oracle : AttemptOracle)
    (screen_width screen_height splat_count : ℕ) :
    MetalBackendState × Except MetalRenderError Unit × List ℕ :=
  if st.gpu_disabled then (st, Except.error MetalRenderError.gpuDisabled, [])
  else if !st.splats_uploaded then (st, Except.error MetalRenderError.other, [])
  else if screen_width = 0 ∨ screen_height = 0 then
    ({ st with last_render_width := screen_width,
               last_render_height := screen_height }, Except.ok (), [])
  else if st.max_splats < splat_count then
    (st, Except.error MetalRenderError.other, [])
  else
    let tile_count_x := max (div_ceil_u32 screen_width 16) 1
    let tile_count_y := max (div_ceil_u32 screen_height 16) 1
    let num_tiles := tile_count_x * tile_count_y
    if 1023 < num_tiles then (st, Except.error MetalRenderError.other, [])
    else
      let stA := ensure_framebuffer_capacity st screen_width screen_height
      if splat_count = 0 then
        ({ stA with framebuffer := fun _ => 0,
                    last_render_width := screen_width,
                    last_render_height := screen_height }, Except.ok (), [])
      else
        let stB := ensure_tile_capacity stA num_tiles
        let out := render_metal_loop oracle splat_count stB 0 []
        match out.2.1 with
        | Except.ok _ =>
            ({ out.1 with last_render_width := screen_width,
                          last_render_height := screen_height },
              Except.ok (), out.2.2)
        | Except.error e => (out.1, Except.error e, out.2.2)

/-- The per-frame shrink bookkeeping over a run of frames: the orchestrator
calls `maybe_shrink_sort_capacity` once per successfully rendered frame with
that frame's `total_overlaps`. -/
def shrinkRun (st : MetalBackendState) (frames : List ℕ) : MetalBackendState :=
  frames.foldl maybe_shrink_sort_capacity st

/-- A concrete backend state used to instantiate the render-call theorems. -/
def mb0 : MetalBackendState :=
  { max_splats := 100, tile_capacity := 0, sort_capacity := 1,
    framebuffer_capacity_pixels := 0, splats_uploaded := true,
    previous_total_overlaps := 0, last_render_width := 3,
    last_render_height := 3, frames_below_threshold := 0,
    gpu_disabled := false, framebuffer := fun _ => 0 }

/-- A concrete attempt oracle whose every attempt overflows with 5 total
overlaps. -/
def oracleOv : AttemptOracle :=
  fun _ => Except.ok ({ overflow_flag := 1, total_overlaps := 5 }, fun _ => 0)

noncomputable section

/-- The canonical on-axis view basis (camera on the +z axis looking at the
origin): rows `right = (1,0,0)`, `up = (0,1,0)`, `forward = (0,0,-1)`.  Used
to state distance-independent quantities of the on-axis projection. -/
def canonicalViewRot : Mat3 := ![![1, 0, 0], ![0, 1, 0], ![0, 0, -1]]

/-- A camera record with the canonical basis at the origin and the default
`fov = π/3`, `near = 0.1`, `far = 1000` of `Camera::new`; only its `fov`
matters where it is used (focal lengths). -/
def canonicalCamera : Camera :=
  { position := ⟨0, 0, 0⟩, forward := ⟨0, 0, -1⟩, right := ⟨1, 0, 0⟩,
    up := ⟨0, 1, 0⟩, yaw := 0, pitch := 0, fov := Real.pi / 3,
    near := 0.1, far := 1000 }

/-- The largest eigenvalue of the *unregularized* on-axis screen covariance
of a splat, scaled back by the squared distance: for a camera on the +z axis
looking at the origin this quantity is independent of the distance `d`
(`Σ₂ = M/d² + 10⁻³·I` with `M` built from the focal lengths and the
view-rotated 3D covariance).  `radius·d = 4·√(μ + 10⁻³·d²)` for every
surviving on-axis splat. -/
def onAxisTopEig (splat : Splat) (w h : ℕ) : ℝ :=
  let fx := (canonicalCamera.focal_lengths w h).1
  let fy := (canonicalCamera.focal_lengths w h).2
  let cv := mat3_mul (mat3_mul canonicalViewRot
    (compute_3d_covariance splat.scale splat.rotation)) (mat3_transpose canonicalViewRot)
  0.5 * ((fx * fx * cv 0 0 + fy * fy * cv 1 1) +
    Real.sqrt ((fx * fx * cv 0 0 - fy * fy * cv 1 1) *
        (fx * fx * cv 0 0 - fy * fy * cv 1 1) +
      4 * ((fx * fy * cv 0 1) * (fx * fy * cv 0 1))))

/-- An isotropic test splat at the origin with identity rotation. -/
def isoSplat (s : ℝ) : Splat :=
  { position := ⟨0, 0, 0⟩, color := (255, 0, 0), opacity := 1,
    scale := ⟨s, s, s⟩, rotation := ⟨1, 0, 0, 0⟩ }

/-- The camera of the on-axis scenario: at `(0,0,d)`, looking at the origin. -/
def axisCamera (d : ℝ) : Camera :=
  look_at_target (Camera.new ⟨0, 0, d⟩ 0 0) ⟨0, 0, 0⟩

end

/-! # Theorems -/

/-- C6 (counterexample): a 16-byte file is smaller than 32 bytes, yet
`load_splat_file` reports the "not a multiple of 32 bytes" error — not the
"file too small" error — because the multiple-of-32 check runs first. -/
theorem load_splat_file_sixteen_bytes :
    load_splat_file (fun _ _ _ _ => 0) (List.replicate 16 0) =
      Except.error SplatFileError.notMultipleOf32 ∧
    (List.replicate 16 0 : List ℕ).length < 32 ∧
    (Except.error SplatFileError.notMultipleOf32 :
        Except SplatFileError (List Splat)) ≠
      Except.error SplatFileError.fileTooSmall := by
  refine ⟨?_, by simp, by simp⟩
  rfl

/-- C6 (amended): `load_splat_file` returns the "not a multiple of 32 bytes"
error exactly when the byte length is not a multiple of 32; the "file too
small" error is returned for the empty file (the only sub-32-byte multiple
of 32), and every other file smaller than 32 bytes gets the not-a-multiple
error instead. -/
theorem load_splat_file_size_errors (f32le : ℕ → ℕ → ℕ → ℕ → ℝ)
    (data : List ℕ) :
    (load_splat_file f32le data = Except.error SplatFileError.notMultipleOf32 ↔
      data.length % 32 ≠ 0) ∧
    (data.length = 0 →
      load_splat_file f32le data = Except.error SplatFileError.fileTooSmall) ∧
    (data.length < 32 →
      load_splat_file f32le data = Except.error SplatFileError.notMultipleOf32 ∨
      load_splat_file f32le data = Except.error SplatFileError.fileTooSmall) := by
  unfold load_splat_file
  refine ⟨?_, ?_, ?_⟩
  · by_cases hm : data.length % 32 = 0
    · rw [if_neg (by simp [hm])]
      constructor
      · intro h
        split at h <;> simp_all
      · intro h
        exact absurd hm h
    · rw [if_pos hm]
      simp [hm]
  · intro h0
    rw [if_neg (by simp [h0]), if_pos (by simp [h0])]
  · intro hlt
    by_cases hm : data.length % 32 = 0
    · rw [if_neg (by simp [hm]), if_pos hlt]
      exact Or.inr rfl
    · rw [if_pos hm]
      exact Or.inl rfl

/-- The comparator order coincides with `≤` on (non-NaN) depths. -/
theorem depthLe_iff (a b : ProjectedSplat) : depthLe a b ↔ a.depth ≤ b.depth := by
  unfold depthLe sortOrdering f32cmp
  simp only [Option.getD_some, ne_eq, compare_gt_iff_gt]
  exact not_lt

/-- C2: `sort_by_depth` returns a permutation of its input that is sorted by
ascending depth (all depths are real numbers, hence non-NaN, in this
embedding), and the source comparator maps any comparison against a NaN
depth (`partial_cmp` returning `None`) to `Ordering::Equal`. -/
theorem sort_by_depth_spec (l : List ProjectedSplat) :
    List.Perm (sort_by_depth l) l ∧
    (∀ i (h : i + 1 < (sort_by_depth l).length),
      ((sort_by_depth l).get ⟨i, Nat.lt_of_succ_lt h⟩).depth ≤
        ((sort_by_depth l).get ⟨i + 1, h⟩).depth) ∧
    (∀ x, sortOrdering none x = Ordering.eq ∧ sortOrdering x none = Ordering.eq) := by
  haveI htot : IsTotal ProjectedSplat depthLe := by
    refine ⟨fun a b => ?_⟩
    simp only [depthLe_iff]
    exact le_total _ _
  haveI htrans : IsTrans ProjectedSplat depthLe := by
    refine ⟨fun a b c hab hbc => ?_⟩
    rw [depthLe_iff] at *
    exact le_trans hab hbc
  refine ⟨List.perm_insertionSort depthLe l, fun i h => ?_, fun x => ?_⟩
  · have hs : List.Sorted depthLe (sort_by_depth l) :=
      List.sorted_insertionSort depthLe l
    have := hs.rel_get_of_lt
      (a := ⟨i, Nat.lt_of_succ_lt h⟩) (b := ⟨i + 1, h⟩)
      (by simp [Fin.lt_def])
    exact (depthLe_iff _ _).mp this
  · cases x <;> simp [sortOrdering, f32cmp]

/-- Growing through `ensure_sort_capacity` reaches at least the requested
number of overlaps. -/
theorem ensure_sort_capacity_target (st : MetalBackendState) (overlaps : ℕ) :
    overlaps ≤ (ensure_sort_capacity st overlaps).sort_capacity := by
  unfold ensure_sort_capacity
  split
  · assumption
  · exact Nat.le_pow_clog one_lt_two overlaps

/-- `ensure_sort_capacity` never reduces the capacity. -/
theorem ensure_sort_capacity_mono (st : MetalBackendState) (overlaps : ℕ) :
    st.sort_capacity ≤ (ensure_sort_capacity st overlaps).sort_capacity := by
  unfold ensure_sort_capacity
  split
  · exact le_rfl
  · exact le_trans (Nat.le_of_not_le (by omega))
      (Nat.le_pow_clog one_lt_two overlaps)

/-- C10: calling `render` with a zero screen dimension (splats uploaded, GPU
not disabled) succeeds without submitting anything: no attempt runs, and the
state changes only in the recorded last render dimensions — in particular
the framebuffer contents are untouched. -/
theorem render_metal_zero_screen (st : MetalBackendState)
    (oracle : AttemptOracle) (screen_width screen_height splat_count : ℕ)
    (hgpu : st.gpu_disabled = false) (hup : st.splats_uploaded = true)
    (hzero : screen_width = 0 ∨ screen_height = 0) :
    render_metal st oracle screen_width screen_height splat_count =
      ({ st with last_render_width := screen_width,
                 last_render_height := screen_height }, Except.ok (), []) := by
  unfold render_metal
  rw [if_neg (by simp [hgpu]), if_neg (by simp [hup]), if_pos hzero]

/-- C10 (witness): the theorem at a concrete state and screen size 0×7. -/
theorem render_metal_zero_screen_witness :
    render_metal mb0 oracleOv 0 7 1 =
      ({ mb0 with last_render_width := 0, last_render_height := 7 },
        Except.ok (), []) :=
  render_metal_zero_screen mb0 oracleOv 0 7 1 rfl rfl (Or.inl rfl)

/-- `ensure_sort_capacity_with_headroom` never reduces the capacity. -/
theorem ensure_headroom_mono (st : MetalBackendState) (r n d : ℕ) :
    st.sort_capacity ≤ (ensure_sort_capacity_with_headroom st r n d).sort_capacity := by
  unfold ensure_sort_capacity_with_headroom
  exact ensure_sort_capacity_mono _ _

/-- The retry loop under two consecutive overflowing attempts: the first
overflow grows the buffers to at least `max(2·total_overlaps, 1)` and
re-submits exactly once; the second overflow grows again and returns the
deferred-overflow error. -/
theorem render_metal_loop_two_overflows (oracle : AttemptOracle)
    (splat_count : ℕ) (st : MetalBackendState)
    (r0 r1 : RenderAttemptResult) (fb0 fb1 : ℕ → ℕ)
    (h0 : oracle 0 = Except.ok (r0, fb0)) (hov0 : r0.overflow_flag ≠ 0)
    (h1 : oracle 1 = Except.ok (r1, fb1)) (hov1 : r1.overflow_flag ≠ 0) :
    ∃ c0 c1 stF,
      render_metal_loop oracle splat_count st 0 [] =
        (stF, Except.error (MetalRenderError.overflowDeferred
          (max (r1.total_overlaps * 2) 1) r1.total_overlaps), [c0, c1]) ∧
      max (r0.total_overlaps * 2) 1 ≤ c1 ∧
      max (r1.total_overlaps * 2) 1 ≤ stF.sort_capacity := by
  unfold render_metal_loop
  rw [h0]
  dsimp only
  rw [if_neg hov0, dif_neg (by omega : ¬ 1 ≤ 0)]
  unfold render_metal_loop
  simp only [Nat.zero_add]
  rw [h1]
  dsimp only
  rw [if_neg hov1, dif_pos (le_refl 1)]
  refine ⟨_, _, _, rfl, ?_, ?_⟩
  · exact le_trans (ensure_sort_capacity_target _ _) (ensure_headroom_mono _ _ _ _)
  · exact ensure_sort_capacity_target _ _

/-- C4: within one `render` call, at most one re-submission happens after an
overflow.  When the first attempt overflows, the sort buffers are grown to
at least `max(2·total_overlaps, 1)` and exactly one further attempt is
submitted; when that re-run also overflows, the buffers are grown to at
least `max(2·total_overlaps, 1)` of the re-run and the call returns the
deferred-overflow error instead of retrying again — exactly two submissions
in total. -/
theorem render_metal_overflow_retry (st : MetalBackendState)
    (oracle : AttemptOracle) (screen_width screen_height splat_count : ℕ)
    (r0 r1 : RenderAttemptResult) (fb0 fb1 : ℕ → ℕ)
    (hgpu : st.gpu_disabled = false) (hup : st.splats_uploaded = true)
    (hw : screen_width ≠ 0) (hh : screen_height ≠ 0)
    (hmax : splat_count ≤ st.max_splats) (hn : splat_count ≠ 0)
    (htiles : max (div_ceil_u32 screen_width 16) 1 *
      max (div_ceil_u32 screen_height 16) 1 ≤ 1023)
    (h0 : oracle 0 = Except.ok (r0, fb0)) (hov0 : r0.overflow_flag ≠ 0)
    (h1 : oracle 1 = Except.ok (r1, fb1)) (hov1 : r1.overflow_flag ≠ 0) :
    ∃ c0 c1,
      (render_metal st oracle screen_width screen_height splat_count).2.2 =
        [c0, c1] ∧
      max (r0.total_overlaps * 2) 1 ≤ c1 ∧
      (render_metal st oracle screen_width screen_height splat_count).2.1 =
        Except.error (MetalRenderError.overflowDeferred
          (max (r1.total_overlaps * 2) 1) r1.total_overlaps) ∧
      max (r1.total_overlaps * 2) 1 ≤
        (render_metal st oracle screen_width screen_height splat_count).1.sort_capacity := by
  obtain ⟨c0, c1, stF, hloop, hc1, hcap⟩ :=
    render_metal_loop_two_overflows oracle splat_count
      (ensure_tile_capacity (ensure_framebuffer_capacity st screen_width screen_height)
        (max (div_ceil_u32 screen_width 16) 1 * max (div_ceil_u32 screen_height 16) 1))
      r0 r1 fb0 fb1 h0 hov0 h1 hov1
  have hrm : render_metal st oracle screen_width screen_height splat_count =
      (stF, Except.error (MetalRenderError.overflowDeferred
        (max (r1.total_overlaps * 2) 1) r1.total_overlaps), [c0, c1]) := by
    unfold render_metal
    rw [if_neg (by simp [hgpu]), if_neg (by simp [hup]),
      if_neg (by simp [hw, hh]),
      if_neg (Nat.not_lt.mpr hmax)]
    dsimp only
    rw [if_neg (Nat.not_lt.mpr htiles), if_neg hn]
    rw [hloop]
  rw [hrm]
  exact ⟨c0, c1, rfl, hc1, rfl, hcap⟩

/-- C4 (witness): the theorem at a concrete state and an oracle that always
overflows with 5 overlaps. -/
theorem render_metal_overflow_retry_witness :
    ∃ c0 c1,
      (render_metal mb0 oracleOv 16 16 1).2.2 = [c0, c1] ∧
      max (5 * 2) 1 ≤ c1 ∧
      (render_metal mb0 oracleOv 16 16 1).2.1 =
        Except.error (MetalRenderError.overflowDeferred (max (5 * 2) 1) 5) ∧
      max (5 * 2) 1 ≤ (render_metal mb0 oracleOv 16 16 1).1.sort_capacity :=
  render_metal_overflow_retry mb0 oracleOv 16 16 1
    { overflow_flag := 1, total_overlaps := 5 }
    { overflow_flag := 1, total_overlaps := 5 }
    (fun _ => 0) (fun _ => 0) rfl rfl (by decide) (by decide) (by decide)
    (by decide) (by decide) rfl (by decide) rfl (by decide)

/-- Normal form of `maybe_shrink_sort_capacity`: the source's inner guard
`actual_overlaps ≤ new_capacity` always holds when the shrink branch is
reached (`actual < capacity/2 ≤ max(capacity/2, 1)`), so the step reduces to
three shapes. -/
theorem maybe_shrink_eq (st : MetalBackendState) (a : ℕ) :
    maybe_shrink_sort_capacity st a =
      if st.sort_capacity ≤ 1 then { st with frames_below_threshold := 0 }
      else if a < st.sort_capacity / 2 then
        (if 60 ≤ st.frames_below_threshold + 1 then
          { st with sort_capacity := max (st.sort_capacity / 2) 1,
                    frames_below_threshold := 0 }
        else { st with frames_below_threshold := st.frames_below_threshold + 1 })
      else { st with frames_below_threshold := 0 } := by
  unfold maybe_shrink_sort_capacity
  dsimp only
  by_cases h1 : st.sort_capacity ≤ 1
  · rw [if_pos h1, if_pos h1]
  · rw [if_neg h1, if_neg h1]
    by_cases h2 : a < st.sort_capacity / 2
    · rw [if_pos h2, if_pos h2]
      by_cases h3 : 60 ≤ st.frames_below_threshold + 1
      · rw [if_pos h3, if_pos h3,
          if_pos (le_trans (Nat.le_of_lt h2) (Nat.le_max_left _ 1))]
      · rw [if_neg h3, if_neg h3]
    · rw [if_neg h2, if_neg h2]

/-- `maybe_shrink_sort_capacity` never grows the capacity. -/
theorem maybe_shrink_le (st : MetalBackendState) (a : ℕ) :
    (maybe_shrink_sort_capacity st a).sort_capacity ≤ st.sort_capacity := by
  rw [maybe_shrink_eq]
  by_cases h1 : st.sort_capacity ≤ 1
  · rw [if_pos h1]
  · rw [if_neg h1]
    by_cases h2 : a < st.sort_capacity / 2
    · rw [if_pos h2]
      by_cases h3 : 60 ≤ st.frames_below_threshold + 1
      · rw [if_pos h3]
        show max (st.sort_capacity / 2) 1 ≤ st.sort_capacity
        omega
      · rw [if_neg h3]
    · rw [if_neg h2]

/-- When `maybe_shrink_sort_capacity` does reduce the capacity, the streak
counter must have reached 59, the frame was below half capacity, the
capacity is halved exactly once, and the counter resets. -/
theorem maybe_shrink_shrink_facts (st : MetalBackendState) (a : ℕ)
    (h : (maybe_shrink_sort_capacity st a).sort_capacity < st.sort_capacity) :
    59 ≤ st.frames_below_threshold ∧ a < st.sort_capacity / 2 ∧
    (maybe_shrink_sort_capacity st a).sort_capacity = max (st.sort_capacity / 2) 1 ∧
    (maybe_shrink_sort_capacity st a).frames_below_threshold = 0 := by
  rw [maybe_shrink_eq] at h ⊢
  by_cases h1 : st.sort_capacity ≤ 1
  · rw [if_pos h1] at h
    exact absurd h (lt_irrefl _)
  · rw [if_neg h1] at h ⊢
    by_cases h2 : a < st.sort_capacity / 2
    · rw [if_pos h2] at h ⊢
      by_cases h3 : 60 ≤ st.frames_below_threshold + 1
      · rw [if_pos h3]
        exact ⟨by omega, h2, rfl, rfl⟩
      · rw [if_neg h3] at h
        exact absurd h (lt_irrefl _)
    · rw [if_neg h2] at h
      exact absurd h (lt_irrefl _)

/-- A frame at or above half capacity leaves the capacity unchanged and
resets the streak counter. -/
theorem maybe_shrink_reset (st : MetalBackendState) (a : ℕ)
    (h : st.sort_capacity / 2 ≤ a) :
    (maybe_shrink_sort_capacity st a).sort_capacity = st.sort_capacity ∧
    (maybe_shrink_sort_capacity st a).frames_below_threshold = 0 := by
  rw [maybe_shrink_eq]
  by_cases h1 : st.sort_capacity ≤ 1
  · rw [if_pos h1]
    exact ⟨rfl, rfl⟩
  · rw [if_neg h1, if_neg (by omega)]
    exact ⟨rfl, rfl⟩

/-- Streak invariant of the shrink bookkeeping: starting with a reset
counter, after any run of frames the counter is at most 59, counts at most
the frames seen, and every one of the last `counter` frames was strictly
below half the capacity that was current at that frame. -/
theorem shrinkRun_streak (frames : List ℕ) (st : MetalBackendState)
    (h0 : st.frames_below_threshold = 0) :
    (shrinkRun st frames).frames_below_threshold ≤ 59 ∧
    (shrinkRun st frames).frames_below_threshold ≤ frames.length ∧
    ∀ j, frames.length - (shrinkRun st frames).frames_below_threshold ≤ j →
      j < frames.length →
      frames.getD j 0 < (shrinkRun st (frames.take j)).sort_capacity / 2 := by
  induction frames using List.reverseRecOn with
  | nil =>
    refine ⟨by simp [shrinkRun, h0], by simp [shrinkRun, h0], fun j h1 h2 => ?_⟩
    simp at h2
  | append_singleton l a ih =>
    obtain ⟨i1, i2, i3⟩ := ih
    have hstep : shrinkRun st (l ++ [a]) =
        maybe_shrink_sort_capacity (shrinkRun st l) a := by
      simp [shrinkRun, List.foldl_append]
    have hlen : (l ++ [a]).length = l.length + 1 := by simp
    -- the three shapes the new counter can take
    by_cases hcap : (shrinkRun st l).sort_capacity ≤ 1
    · have hc : (maybe_shrink_sort_capacity (shrinkRun st l) a).frames_below_threshold = 0 := by
        rw [maybe_shrink_eq, if_pos hcap]
      rw [hstep, hc, hlen]
      exact ⟨by omega, by omega, fun j h1 h2 => absurd h2 (by omega)⟩
    · by_cases hbelow : a < (shrinkRun st l).sort_capacity / 2
      · by_cases hsixty : 60 ≤ (shrinkRun st l).frames_below_threshold + 1
        · have hc : (maybe_shrink_sort_capacity (shrinkRun st l) a).frames_below_threshold = 0 := by
            rw [maybe_shrink_eq, if_neg hcap, if_pos hbelow, if_pos hsixty]
          rw [hstep, hc, hlen]
          exact ⟨by omega, by omega, fun j h1 h2 => absurd h2 (by omega)⟩
        · have hc : (maybe_shrink_sort_capacity (shrinkRun st l) a).frames_below_threshold =
              (shrinkRun st l).frames_below_threshold + 1 := by
            rw [maybe_shrink_eq, if_neg hcap, if_pos hbelow, if_neg hsixty]
          rw [hstep, hc, hlen]
          refine ⟨by omega, by omega, fun j h1 h2 => ?_⟩
          rcases Nat.lt_or_ge j l.length with hj | hj
          · rw [List.getD_append _ _ _ _ hj,
              List.take_append_of_le_length (Nat.le_of_lt hj)]
            exact i3 j (by omega) hj
          · have hj' : j = l.length := by omega
            subst hj'
            rw [List.getD_append_right _ _ _ _ le_rfl]
            simp only [Nat.sub_self, List.getD]
            rw [show (l ++ [a]).take l.length = l from List.take_left l [a]]
            simpa using hbelow
      · have hc : (maybe_shrink_sort_capacity (shrinkRun st l) a).frames_below_threshold = 0 := by
          rw [maybe_shrink_eq, if_neg hcap, if_neg hbelow]
        rw [hstep, hc, hlen]
        exact ⟨by omega, by omega, fun j h1 h2 => absurd h2 (by omega)⟩

/-- C5: `sort_capacity` is only ever reduced by the shrink heuristic after a
streak of 60 consecutive frames strictly below half the then-current
capacity (`ensure_sort_capacity` never reduces it); a reduction halves the
capacity exactly once and resets the streak counter; and any frame at or
above half capacity resets the streak counter without touching the
capacity. -/
theorem sort_capacity_shrink_policy :
    (∀ st overlaps, st.sort_capacity ≤ (ensure_sort_capacity st overlaps).sort_capacity) ∧
    (∀ st a, (maybe_shrink_sort_capacity st a).sort_capacity ≤ st.sort_capacity) ∧
    (∀ st a, (maybe_shrink_sort_capacity st a).sort_capacity < st.sort_capacity →
      59 ≤ st.frames_below_threshold ∧ a < st.sort_capacity / 2 ∧
      (maybe_shrink_sort_capacity st a).sort_capacity = max (st.sort_capacity / 2) 1 ∧
      (maybe_shrink_sort_capacity st a).frames_below_threshold = 0) ∧
    (∀ st a, st.sort_capacity / 2 ≤ a →
      (maybe_shrink_sort_capacity st a).sort_capacity = st.sort_capacity ∧
      (maybe_shrink_sort_capacity st a).frames_below_threshold = 0) ∧
    (∀ st (frames : List ℕ) k, st.frames_below_threshold = 0 →
      k < frames.length →
      (maybe_shrink_sort_capacity (shrinkRun st (frames.take k))
          (frames.getD k 0)).sort_capacity <
        (shrinkRun st (frames.take k)).sort_capacity →
      59 ≤ k ∧ ∀ j, k - 59 ≤ j → j ≤ k →
        frames.getD j 0 < (shrinkRun st (frames.take j)).sort_capacity / 2) := by
  refine ⟨ensure_sort_capacity_mono, maybe_shrink_le, maybe_shrink_shrink_facts,
    maybe_shrink_reset, fun st frames k h0 hk hshrink => ?_⟩
  obtain ⟨f1, f2, _, _⟩ := maybe_shrink_shrink_facts _ _ hshrink
  obtain ⟨i1, i2, i3⟩ := shrinkRun_streak (frames.take k) st h0
  have hlen : (frames.take k).length = k := by
    simp [List.length_take]
    omega
  have hk59 : 59 ≤ k := by omega
  refine ⟨hk59, fun j hj1 hj2 => ?_⟩
  rcases Nat.lt_or_ge j k with hj | hj
  · have hjlen : j < frames.length := by omega
    have hgd : (frames.take k).getD j 0 = frames.getD j 0 := by
      rw [List.getD_eq_getElem _ _ (by omega), List.getD_eq_getElem _ _ hjlen]
      exact List.getElem_take frames
    have htt : (frames.take k).take j = frames.take j := by
      rw [List.take_take]
      congr 1
      omega
    have := i3 j (by omega) (by omega)
    rw [hgd, htt] at this
    exact this
  · have hj' : j = k := by omega
    subst hj'
    exact f2

/-! ### Rasterizer per-pixel lemmas -/

/-- One pixel-blend step keeps the pixel's alpha at most 1 and never
decreases it (whatever the splat's data: non-positive contributions are
skipped by the guards). -/
theorem rasterize_pixel_alpha (splat : ProjectedSplat) (width x y : ℕ)
    (rs : RenderState) (j : ℕ) (hub : rs.alpha_buffer j ≤ 1) :
    rs.alpha_buffer j ≤ (rasterize_pixel splat width x y rs).alpha_buffer j ∧
    (rasterize_pixel splat width x y rs).alpha_buffer j ≤ 1 := by
  unfold rasterize_pixel
  dsimp only
  split_ifs with h1 h2 h3 h4
  · exact ⟨le_rfl, hub⟩
  · exact ⟨le_rfl, hub⟩
  · exact ⟨le_rfl, hub⟩
  · exact ⟨le_rfl, hub⟩
  · have hw : (0 : ℝ) ≤ splat.opacity *
        evaluate_2d_gaussian ((x : ℝ) + 0.5 - splat.screen_x)
          ((y : ℝ) + 0.5 - splat.screen_y) splat.inv_cov_a splat.inv_cov_b
          splat.inv_cov_c *
        (1 - rs.alpha_buffer (y * width + x)) :=
      le_trans (by norm_num) (not_lt.mp h4)
    dsimp only
    by_cases hj : j = y * width + x
    · subst hj
      rw [if_pos rfl]
      refine ⟨le_min (le_add_of_nonneg_right hw) hub, min_le_right _ _⟩
    · rw [if_neg hj]
      exact ⟨le_rfl, hub⟩

/-- A saturated pixel is frozen: one pixel-blend step changes neither its
alpha nor its depth. -/
theorem rasterize_pixel_freeze (splat : ProjectedSplat) (width x y : ℕ)
    (rs : RenderState) (j : ℕ)
    (h : SATURATION_EPSILON ≤ rs.alpha_buffer j) :
    (rasterize_pixel splat width x y rs).alpha_buffer j = rs.alpha_buffer j ∧
    (rasterize_pixel splat width x y rs).depth_buffer j = rs.depth_buffer j := by
  unfold rasterize_pixel
  dsimp only
  split_ifs with h1 h2 h3 h4
  · exact ⟨rfl, rfl⟩
  · exact ⟨rfl, rfl⟩
  · exact ⟨rfl, rfl⟩
  · exact ⟨rfl, rfl⟩
  · dsimp only
    have hj : j ≠ y * width + x := by
      intro hj
      rw [hj] at h
      exact h1 h
    rw [if_neg hj, if_neg (fun hc => hj hc.1)]
    exact ⟨rfl, rfl⟩

/-- A pixel-blend step that leaves the pixel's alpha below the saturation
epsilon does not touch its depth entry. -/
theorem rasterize_pixel_depth_unchanged (splat : ProjectedSplat)
    (width x y : ℕ) (rs : RenderState) (j : ℕ)
    (h : (rasterize_pixel splat width x y rs).alpha_buffer j < SATURATION_EPSILON) :
    (rasterize_pixel splat width x y rs).depth_buffer j = rs.depth_buffer j := by
  unfold rasterize_pixel at *
  dsimp only at *
  split_ifs at h ⊢ with h1 h2 h3 h4
  · rfl
  · rfl
  · rfl
  · rfl
  · dsimp only at *
    by_cases hj : j = y * width + x
    · rw [if_pos hj] at h
      rw [if_neg]
      intro hc
      exact absurd hc.2 (not_le.mpr h)
    · rw [if_neg (fun hc => hj hc.1)]

/-- A pixel-blend step that pushes the pixel's alpha from below the
saturation epsilon to at least it records the splat's depth at that pixel. -/
theorem rasterize_pixel_depth_cross (splat : ProjectedSplat)
    (width x y : ℕ) (rs : RenderState) (j : ℕ)
    (h0 : rs.alpha_buffer j < SATURATION_EPSILON)
    (h1 : SATURATION_EPSILON ≤ (rasterize_pixel splat width x y rs).alpha_buffer j) :
    (rasterize_pixel splat width x y rs).depth_buffer j = (splat.depth : WithTop ℝ) := by
  unfold rasterize_pixel at *
  dsimp only at *
  split_ifs at h1 ⊢ with hg1 hg2 hg3 hg4
  · exact absurd h1 (not_le.mpr h0)
  · exact absurd h1 (not_le.mpr h0)
  · exact absurd h1 (not_le.mpr h0)
  · exact absurd h1 (not_le.mpr h0)
  · dsimp only at *
    by_cases hj : j = y * width + x
    · rw [if_pos hj] at h1
      rw [if_pos ⟨hj, h1⟩]
    · rw [if_neg hj] at h1
      exact absurd h1 (not_le.mpr h0)

/-! ### Fold lifting of the per-pixel lemmas -/

/-- Folding any alpha-monotone, alpha-bounded step keeps the bound and the
monotonicity. -/
theorem foldl_alpha_mono {β : Type} (step : RenderState → β → RenderState)
    (j : ℕ)
    (hstep : ∀ rs b, rs.alpha_buffer j ≤ 1 →
      rs.alpha_buffer j ≤ (step rs b).alpha_buffer j ∧
      (step rs b).alpha_buffer j ≤ 1)
    (l : List β) (rs : RenderState) (h : rs.alpha_buffer j ≤ 1) :
    rs.alpha_buffer j ≤ (l.foldl step rs).alpha_buffer j ∧
    (l.foldl step rs).alpha_buffer j ≤ 1 := by
  induction l generalizing rs with
  | nil => exact ⟨le_rfl, h⟩
  | cons b t ih =>
    obtain ⟨m1, m2⟩ := hstep rs b h
    obtain ⟨m3, m4⟩ := ih (step rs b) m2
    exact ⟨le_trans m1 m3, m4⟩

/-- Folding any freezing step over a saturated pixel changes nothing. -/
theorem foldl_freeze {β : Type} (step : RenderState → β → RenderState) (j : ℕ)
    (hstep : ∀ rs b, SATURATION_EPSILON ≤ rs.alpha_buffer j →
      (step rs b).alpha_buffer j = rs.alpha_buffer j ∧
      (step rs b).depth_buffer j = rs.depth_buffer j)
    (l : List β) (rs : RenderState)
    (h : SATURATION_EPSILON ≤ rs.alpha_buffer j) :
    (l.foldl step rs).alpha_buffer j = rs.alpha_buffer j ∧
    (l.foldl step rs).depth_buffer j = rs.depth_buffer j := by
  induction l generalizing rs with
  | nil => exact ⟨rfl, rfl⟩
  | cons b t ih =>
    obtain ⟨m1, m2⟩ := hstep rs b h
    obtain ⟨m3, m4⟩ := ih (step rs b) (m1 ▸ h)
    exact ⟨m3.trans m1, m4.trans m2⟩

/-- If a fold of freezing, non-writing steps ends below the saturation
epsilon, the pixel's depth entry was never written. -/
theorem foldl_depth_unchanged {β : Type} (step : RenderState → β → RenderState)
    (j : ℕ)
    (hfreeze : ∀ rs b, SATURATION_EPSILON ≤ rs.alpha_buffer j →
      (step rs b).alpha_buffer j = rs.alpha_buffer j ∧
      (step rs b).depth_buffer j = rs.depth_buffer j)
    (hdu : ∀ rs b, (step rs b).alpha_buffer j < SATURATION_EPSILON →
      (step rs b).depth_buffer j = rs.depth_buffer j)
    (l : List β) (rs : RenderState)
    (h : (l.foldl step rs).alpha_buffer j < SATURATION_EPSILON) :
    (l.foldl step rs).depth_buffer j = rs.depth_buffer j := by
  induction l generalizing rs with
  | nil => rfl
  | cons b t ih =>
    have hb : (step rs b).alpha_buffer j < SATURATION_EPSILON := by
      by_contra hge
      push_neg at hge
      have := (foldl_freeze step j hfreeze t (step rs b) hge).1
      rw [List.foldl_cons] at h
      rw [this] at h
      exact absurd hge (not_le.mpr h)
    rw [List.foldl_cons]
    rw [ih (step rs b) (by rw [← List.foldl_cons]; exact h)]
    exact hdu rs b hb

/-- If a fold of steps crosses the saturation epsilon and every crossing
step writes the value `D` to the pixel's depth, the fold's final depth is
`D`. -/
theorem foldl_depth_cross {β : Type} (step : RenderState → β → RenderState)
    (j : ℕ) (D : WithTop ℝ)
    (hfreeze : ∀ rs b, SATURATION_EPSILON ≤ rs.alpha_buffer j →
      (step rs b).alpha_buffer j = rs.alpha_buffer j ∧
      (step rs b).depth_buffer j = rs.depth_buffer j)
    (hcross : ∀ rs b, rs.alpha_buffer j < SATURATION_EPSILON →
      SATURATION_EPSILON ≤ (step rs b).alpha_buffer j →
      (step rs b).depth_buffer j = D)
    (l : List β) (rs : RenderState)
    (h0 : rs.alpha_buffer j < SATURATION_EPSILON)
    (h1 : SATURATION_EPSILON ≤ (l.foldl step rs).alpha_buffer j) :
    (l.foldl step rs).depth_buffer j = D := by
  induction l generalizing rs with
  | nil => exact absurd h1 (not_le.mpr h0)
  | cons b t ih =>
    rw [List.foldl_cons] at h1 ⊢
    by_cases hb : SATURATION_EPSILON ≤ (step rs b).alpha_buffer j
    · have := foldl_freeze step j hfreeze t (step rs b) hb
      rw [this.2, hcross rs b h0 hb]
    · exact ih (step rs b) (not_le.mp hb) h1

/-! ### Lifting to one splat and to the splat list -/

/-- Alpha bound and monotonicity for one row of a splat. -/
theorem rasterize_row_alpha (splat : ProjectedSplat) (width y mnx mxx : ℕ)
    (rs : RenderState) (j : ℕ) (hub : rs.alpha_buffer j ≤ 1) :
    rs.alpha_buffer j ≤ (rasterize_row splat width y mnx mxx rs).alpha_buffer j ∧
    (rasterize_row splat width y mnx mxx rs).alpha_buffer j ≤ 1 := by
  unfold rasterize_row
  exact foldl_alpha_mono _ j
    (fun rs' k h => rasterize_pixel_alpha splat width (mnx + k) y rs' j h) _ rs hub

/-- Freezing for one row of a splat. -/
theorem rasterize_row_freeze (splat : ProjectedSplat) (width y mnx mxx : ℕ)
    (rs : RenderState) (j : ℕ)
    (h : SATURATION_EPSILON ≤ rs.alpha_buffer j) :
    (rasterize_row splat width y mnx mxx rs).alpha_buffer j = rs.alpha_buffer j ∧
    (rasterize_row splat width y mnx mxx rs).depth_buffer j = rs.depth_buffer j := by
  unfold rasterize_row
  exact foldl_freeze _ j
    (fun rs' k hh => rasterize_pixel_freeze splat width (mnx + k) y rs' j hh) _ rs h

/-- No depth write on a row that ends below the saturation epsilon. -/
theorem rasterize_row_depth_unchanged (splat : ProjectedSplat)
    (width y mnx mxx : ℕ) (rs : RenderState) (j : ℕ)
    (h : (rasterize_row splat width y mnx mxx rs).alpha_buffer j < SATURATION_EPSILON) :
    (rasterize_row splat width y mnx mxx rs).depth_buffer j = rs.depth_buffer j := by
  unfold rasterize_row at *
  exact foldl_depth_unchanged _ j
    (fun rs' k hh => rasterize_pixel_freeze splat width (mnx + k) y rs' j hh)
    (fun rs' k hh => rasterize_pixel_depth_unchanged splat width (mnx + k) y rs' j hh)
    _ rs h

/-- A row that crosses the saturation epsilon records the splat's depth. -/
theorem rasterize_row_depth_cross (splat : ProjectedSplat)
    (width y mnx mxx : ℕ) (rs : RenderState) (j : ℕ)
    (h0 : rs.alpha_buffer j < SATURATION_EPSILON)
    (h1 : SATURATION_EPSILON ≤ (rasterize_row splat width y mnx mxx rs).alpha_buffer j) :
    (rasterize_row splat width y mnx mxx rs).depth_buffer j = (splat.depth : WithTop ℝ) := by
  unfold rasterize_row at *
  exact foldl_depth_cross _ j _
    (fun rs' k hh => rasterize_pixel_freeze splat width (mnx + k) y rs' j hh)
    (fun rs' k ha hb => rasterize_pixel_depth_cross splat width (mnx + k) y rs' j ha hb)
    _ rs h0 h1

/-- Alpha bound and monotonicity for one whole splat. -/
theorem rasterize_one_splat_alpha (splat : ProjectedSplat) (width height : ℕ)
    (rs : RenderState) (j : ℕ) (hub : rs.alpha_buffer j ≤ 1) :
    rs.alpha_buffer j ≤ (rasterize_one_splat splat width height rs).alpha_buffer j ∧
    (rasterize_one_splat splat width height rs).alpha_buffer j ≤ 1 := by
  unfold rasterize_one_splat
  dsimp only
  split
  · exact ⟨le_rfl, hub⟩
  · exact foldl_alpha_mono _ j
      (fun rs' k h => rasterize_row_alpha splat width _ _ _ rs' j h) _ rs hub

/-- Freezing for one whole splat. -/
theorem rasterize_one_splat_freeze (splat : ProjectedSplat) (width height : ℕ)
    (rs : RenderState) (j : ℕ)
    (h : SATURATION_EPSILON ≤ rs.alpha_buffer j) :
    (rasterize_one_splat splat width height rs).alpha_buffer j = rs.alpha_buffer j ∧
    (rasterize_one_splat splat width height rs).depth_buffer j = rs.depth_buffer j := by
  unfold rasterize_one_splat
  dsimp only
  split
  · exact ⟨rfl, rfl⟩
  · exact foldl_freeze _ j
      (fun rs' k hh => rasterize_row_freeze splat width _ _ _ rs' j hh) _ rs h

/-- No depth write from a splat that leaves the pixel below saturation. -/
theorem rasterize_one_splat_depth_unchanged (splat : ProjectedSplat)
    (width height : ℕ) (rs : RenderState) (j : ℕ)
    (h : (rasterize_one_splat splat width height rs).alpha_buffer j < SATURATION_EPSILON) :
    (rasterize_one_splat splat width height rs).depth_buffer j = rs.depth_buffer j := by
  unfold rasterize_one_splat at *
  dsimp only at *
  split_ifs at h ⊢ with hg
  · rfl
  · exact foldl_depth_unchanged _ j
      (fun rs' k hh => rasterize_row_freeze splat width _ _ _ rs' j hh)
      (fun rs' k hh => rasterize_row_depth_unchanged splat width _ _ _ rs' j hh)
      _ rs h

/-- A splat that saturates the pixel records its own depth there. -/
theorem rasterize_one_splat_depth_cross (splat : ProjectedSplat)
    (width height : ℕ) (rs : RenderState) (j : ℕ)
    (h0 : rs.alpha_buffer j < SATURATION_EPSILON)
    (h1 : SATURATION_EPSILON ≤ (rasterize_one_splat splat width height rs).alpha_buffer j) :
    (rasterize_one_splat splat width height rs).depth_buffer j = (splat.depth : WithTop ℝ) := by
  unfold rasterize_one_splat at *
  dsimp only at *
  split_ifs at h1 ⊢ with hg
  · exact absurd h1 (not_le.mpr h0)
  · exact foldl_depth_cross _ j _
      (fun rs' k hh => rasterize_row_freeze splat width _ _ _ rs' j hh)
      (fun rs' k ha hb => rasterize_row_depth_cross splat width _ _ _ rs' j ha hb)
      _ rs h0 h1

/-- `rasterize_splats` is the fold of `rasterize_one_splat` whenever the
screen is nonempty (the empty-list guard returns the state, which the empty
fold does too). -/
theorem rasterize_splats_eq_foldl (l : List ProjectedSplat) (st : RenderState)
    (w h : ℕ) (hw : w ≠ 0) (hh : h ≠ 0) :
    rasterize_splats l st w h =
      l.foldl (fun st s => rasterize_one_splat s w h st) st := by
  unfold rasterize_splats
  rcases l with _ | ⟨s, t⟩
  · rw [if_pos (by simp)]
    rfl
  · rw [if_neg (by simp [hw, hh])]

/-- The saturating-splat decomposition: if a pixel crosses the saturation
epsilon during a fold of splats, some splat `s` in the list is the first to
saturate it; before `s` the depth entry is untouched, `s` writes its own
depth there, and the write survives to the end of the frame. -/
theorem rasterize_fold_crossing (w h : ℕ) (j : ℕ)
    (splats : List ProjectedSplat) (rs : RenderState)
    (h0 : rs.alpha_buffer j < SATURATION_EPSILON)
    (h1 : SATURATION_EPSILON ≤
      (splats.foldl (fun st s => rasterize_one_splat s w h st) rs).alpha_buffer j) :
    ∃ l1 s l2, splats = l1 ++ s :: l2 ∧
      (l1.foldl (fun st s => rasterize_one_splat s w h st) rs).alpha_buffer j <
        SATURATION_EPSILON ∧
      (l1.foldl (fun st s => rasterize_one_splat s w h st) rs).depth_buffer j =
        rs.depth_buffer j ∧
      SATURATION_EPSILON ≤
        ((l1 ++ [s]).foldl (fun st s => rasterize_one_splat s w h st) rs).alpha_buffer j ∧
      ((l1 ++ [s]).foldl (fun st s => rasterize_one_splat s w h st) rs).depth_buffer j =
        (s.depth : WithTop ℝ) ∧
      (splats.foldl (fun st s => rasterize_one_splat s w h st) rs).depth_buffer j =
        (s.depth : WithTop ℝ) := by
  induction splats generalizing rs with
  | nil => exact absurd h1 (not_le.mpr h0)
  | cons b t ih =>
    rw [List.foldl_cons] at h1
    by_cases hb : SATURATION_EPSILON ≤ (rasterize_one_splat b w h rs).alpha_buffer j
    · refine ⟨[], b, t, rfl, h0, rfl, ?_, ?_, ?_⟩
      · simpa using hb
      · simpa using rasterize_one_splat_depth_cross b w h rs j h0 hb
      · rw [List.foldl_cons]
        rw [(foldl_freeze _ j
          (fun rs' s hh => rasterize_one_splat_freeze s w h rs' j hh) t
          (rasterize_one_splat b w h rs) hb).2]
        exact rasterize_one_splat_depth_cross b w h rs j h0 hb
    · obtain ⟨l1, s, l2, hsplit, p1, p2, p3, p4, p5⟩ :=
        ih (rasterize_one_splat b w h rs) (not_le.mp hb) h1
      refine ⟨b :: l1, s, l2, by rw [hsplit, List.cons_append], ?_, ?_, ?_, ?_, ?_⟩
      · rw [List.foldl_cons]
        exact p1
      · rw [List.foldl_cons, p2]
        exact rasterize_one_splat_depth_unchanged b w h rs j (not_le.mp hb)
      · rw [show (b :: l1) ++ [s] = b :: (l1 ++ [s]) from rfl, List.foldl_cons]
        exact p3
      · rw [show (b :: l1) ++ [s] = b :: (l1 ++ [s]) from rfl, List.foldl_cons]
        exact p4
      · rw [List.foldl_cons]
        exact p5

/-- C1: rasterizing a depth-sorted splat list with opacities in `[0, 1]`
into a cleared pixel buffer keeps every pixel's accumulated alpha in
`[0, 1]`, and the alpha after any prefix of the frame's splats is at most
the alpha after the whole frame — it never decreases within the frame. -/
theorem rasterize_alpha_monotone (splats : List ProjectedSplat)
    (width height : ℕ) (rs : RenderState)
    (hsorted : List.Sorted (fun a b : ProjectedSplat => a.depth ≤ b.depth) splats)
    (hop : ∀ s ∈ splats, 0 ≤ s.opacity ∧ s.opacity ≤ 1) :
    (∀ j, 0 ≤ (rasterize_splats splats (clear_framebuffer rs) width height).alpha_buffer j ∧
      (rasterize_splats splats (clear_framebuffer rs) width height).alpha_buffer j ≤ 1) ∧
    (∀ l1 l2, splats = l1 ++ l2 → ∀ j,
      (rasterize_splats l1 (clear_framebuffer rs) width height).alpha_buffer j ≤
        (rasterize_splats splats (clear_framebuffer rs) width height).alpha_buffer j) := by
  have hcl0 : ∀ j, (clear_framebuffer rs).alpha_buffer j = 0 := fun _ => rfl
  by_cases hz : width = 0 ∨ height = 0
  · have hall : ∀ (l : List ProjectedSplat),
        rasterize_splats l (clear_framebuffer rs) width height =
          clear_framebuffer rs := by
      intro l
      unfold rasterize_splats
      rw [if_pos (by tauto)]
    refine ⟨fun j => ?_, fun l1 l2 hsp j => ?_⟩
    · rw [hall, hcl0]
      norm_num
    · rw [hall, hall]
  · push_neg at hz
    obtain ⟨hw, hh⟩ := hz
    refine ⟨fun j => ?_, fun l1 l2 hsp j => ?_⟩
    · rw [rasterize_splats_eq_foldl _ _ _ _ hw hh]
      have := foldl_alpha_mono (fun st s => rasterize_one_splat s width height st) j
        (fun rs' b h => rasterize_one_splat_alpha b width height rs' j h)
        splats (clear_framebuffer rs) (by rw [hcl0]; norm_num)
      refine ⟨?_, this.2⟩
      calc (0 : ℝ) = (clear_framebuffer rs).alpha_buffer j := (hcl0 j).symm
        _ ≤ _ := this.1
    · rw [rasterize_splats_eq_foldl _ _ _ _ hw hh,
        rasterize_splats_eq_foldl _ _ _ _ hw hh, hsp, List.foldl_append]
      have hpre := foldl_alpha_mono (fun st s => rasterize_one_splat s width height st) j
        (fun rs' b h => rasterize_one_splat_alpha b width height rs' j h)
        l1 (clear_framebuffer rs) (by rw [hcl0]; norm_num)
      exact (foldl_alpha_mono (fun st s => rasterize_one_splat s width height st) j
        (fun rs' b h => rasterize_one_splat_alpha b width height rs' j h)
        l2 _ hpre.2).1

/-- C1 (witness): the theorem at the empty splat list on a 2×2 screen. -/
theorem rasterize_alpha_monotone_witness :
    (∀ j, 0 ≤ (rasterize_splats [] (clear_framebuffer
        { framebuffer := fun _ => (0, 0, 0), alpha_buffer := fun _ => 0,
          depth_buffer := fun _ => ⊤, width := 2, height := 2 }) 2 2).alpha_buffer j ∧
      (rasterize_splats [] (clear_framebuffer
        { framebuffer := fun _ => (0, 0, 0), alpha_buffer := fun _ => 0,
          depth_buffer := fun _ => ⊤, width := 2, height := 2 }) 2 2).alpha_buffer j ≤ 1) ∧
    (∀ l1 l2, ([] : List ProjectedSplat) = l1 ++ l2 → ∀ j,
      (rasterize_splats l1 (clear_framebuffer
        { framebuffer := fun _ => (0, 0, 0), alpha_buffer := fun _ => 0,
          depth_buffer := fun _ => ⊤, width := 2, height := 2 }) 2 2).alpha_buffer j ≤
        (rasterize_splats [] (clear_framebuffer
        { framebuffer := fun _ => (0, 0, 0), alpha_buffer := fun _ => 0,
          depth_buffer := fun _ => ⊤, width := 2, height := 2 }) 2 2).alpha_buffer j) :=
  rasterize_alpha_monotone [] 2 2
    { framebuffer := fun _ => (0, 0, 0), alpha_buffer := fun _ => 0,
      depth_buffer := fun _ => ⊤, width := 2, height := 2 }
    (by simp) (by simp)

/-- C9: within one frame over a cleared buffer, a pixel's depth entry is
written at most once: it stays at the cleared `+∞` (`⊤`) when the pixel's
accumulated alpha ends below the saturation epsilon 0.999, and when the
pixel saturates the entry holds exactly the depth of the first splat that
saturated it, untouched before that splat and frozen afterwards. -/
theorem rasterize_depth_write_once (splats : List ProjectedSplat)
    (width height : ℕ) (rs : RenderState) (j : ℕ) :
    ((rasterize_splats splats (clear_framebuffer rs) width height).alpha_buffer j <
        SATURATION_EPSILON →
      (rasterize_splats splats (clear_framebuffer rs) width height).depth_buffer j = ⊤) ∧
    (SATURATION_EPSILON ≤
        (rasterize_splats splats (clear_framebuffer rs) width height).alpha_buffer j →
      ∃ l1 s l2, splats = l1 ++ s :: l2 ∧
        (rasterize_splats l1 (clear_framebuffer rs) width height).alpha_buffer j <
          SATURATION_EPSILON ∧
        (rasterize_splats l1 (clear_framebuffer rs) width height).depth_buffer j = ⊤ ∧
        SATURATION_EPSILON ≤
          (rasterize_splats (l1 ++ [s]) (clear_framebuffer rs) width height).alpha_buffer j ∧
        (rasterize_splats (l1 ++ [s]) (clear_framebuffer rs) width height).depth_buffer j =
          (s.depth : WithTop ℝ) ∧
        (rasterize_splats splats (clear_framebuffer rs) width height).depth_buffer j =
          (s.depth : WithTop ℝ)) := by
  have hcl0 : (clear_framebuffer rs).alpha_buffer j = 0 := rfl
  have hclD : (clear_framebuffer rs).depth_buffer j = ⊤ := rfl
  have heps : (0 : ℝ) < SATURATION_EPSILON := by norm_num [SATURATION_EPSILON]
  by_cases hz : width = 0 ∨ height = 0
  · have hall : ∀ (l : List ProjectedSplat),
        rasterize_splats l (clear_framebuffer rs) width height =
          clear_framebuffer rs := by
      intro l
      unfold rasterize_splats
      rw [if_pos (by tauto)]
    refine ⟨fun _ => by rw [hall]; exact hclD, fun habs => ?_⟩
    rw [hall, hcl0] at habs
    exact absurd habs (not_le.mpr heps)
  · push_neg at hz
    obtain ⟨hw, hh⟩ := hz
    rw [rasterize_splats_eq_foldl _ _ _ _ hw hh]
    refine ⟨fun hlt => ?_, fun hge => ?_⟩
    · rw [foldl_depth_unchanged _ j
        (fun rs' b h => rasterize_one_splat_freeze b width height rs' j h)
        (fun rs' b h => rasterize_one_splat_depth_unchanged b width height rs' j h)
        splats (clear_framebuffer rs) hlt]
      exact hclD
    · obtain ⟨l1, s, l2, hsp, p1, p2, p3, p4, p5⟩ :=
        rasterize_fold_crossing width height j splats (clear_framebuffer rs)
          (by rw [hcl0]; exact heps) hge
      refine ⟨l1, s, l2, hsp, ?_, ?_, ?_, ?_, p5⟩
      · rw [rasterize_splats_eq_foldl _ _ _ _ hw hh]
        exact p1
      · rw [rasterize_splats_eq_foldl _ _ _ _ hw hh, p2]
        exact hclD
      · rw [rasterize_splats_eq_foldl _ _ _ _ hw hh]
        exact p3
      · rw [rasterize_splats_eq_foldl _ _ _ _ hw hh]
        exact p4

/-- C7 (failing input): `look_at_target` pointed straight up from the origin
sets `pitch = π/2`, making `forward` parallel to the world up vector.  The
source then normalizes the zero cross product (NaN in `f32`, the zero vector
over `ℝ`), replaces only `right` by the canonical `(1,0,0)` — but computes
`up` from the *unreplaced* degenerate `right`, leaving `up` the zero vector
instead of a canonical unit vector: the basis is not orthonormal and not
canonically replaced. -/
theorem look_at_up_degenerate :
    (look_at_target (Camera.new ⟨0, 0, 0⟩ 0 0) ⟨0, 1, 0⟩).right = ⟨1, 0, 0⟩ ∧
    (look_at_target (Camera.new ⟨0, 0, 0⟩ 0 0) ⟨0, 1, 0⟩).up = ⟨0, 0, 0⟩ ∧
    Vec3.length_squared (look_at_target (Camera.new ⟨0, 0, 0⟩ 0 0) ⟨0, 1, 0⟩).up = 0 := by
  have hz : (⟨0, 0⟩ : ℂ) = 0 := by
    refine Complex.ext ?_ ?_ <;> norm_num
  have harg : atan2 (0 : ℝ) 0 = 0 := by
    unfold atan2
    rw [hz, Complex.arg_zero]
  have hpos : (Camera.new ⟨0, 0, 0⟩ 0 0).position = ⟨0, 0, 0⟩ := rfl
  have hn1 : Vec3.normalize ⟨0, 1, 0⟩ = ⟨0, 1, 0⟩ := by
    unfold Vec3.normalize Vec3.length Vec3.length_squared
    norm_num
  have hsub : Vec3.sub ⟨0, 1, 0⟩ (Camera.new ⟨0, 0, 0⟩ 0 0).position = ⟨0, 1, 0⟩ := by
    rw [hpos]
    unfold Vec3.sub
    norm_num
  have hlook : look_at_target (Camera.new ⟨0, 0, 0⟩ 0 0) ⟨0, 1, 0⟩ =
      Camera.update_vectors
        { Camera.new ⟨0, 0, 0⟩ 0 0 with yaw := 0, pitch := Real.pi / 2 } := by
    unfold look_at_target
    dsimp only
    rw [hsub, hn1]
    rw [if_neg (by unfold Vec3.length_squared; norm_num)]
    have hy : atan2 (⟨0, 1, 0⟩ : Vec3).z (⟨0, 1, 0⟩ : Vec3).x = 0 := harg
    have hp : Real.arcsin (rclamp (⟨0, 1, 0⟩ : Vec3).y (-1) 1) = Real.pi / 2 := by
      show Real.arcsin (rclamp 1 (-1) 1) = Real.pi / 2
      rw [show rclamp 1 (-1) 1 = 1 by unfold rclamp; norm_num, Real.arcsin_one]
    rw [hy, hp]
  rw [hlook]
  unfold Camera.update_vectors
  dsimp only
  rw [Real.cos_zero, Real.sin_zero, Real.cos_pi_div_two, Real.sin_pi_div_two]
  have hfwd : Vec3.normalize ⟨1 * 0, 1, 0 * 0⟩ = ⟨0, 1, 0⟩ := by
    rw [show (⟨1 * 0, 1, 0 * 0⟩ : Vec3) = ⟨0, 1, 0⟩ by norm_num]
    exact hn1
  rw [hfwd]
  have hcross : Vec3.cross ⟨0, 1, 0⟩ ⟨0, 1, 0⟩ = ⟨0, 0, 0⟩ := by
    unfold Vec3.cross
    norm_num
  rw [hcross]
  have hn0 : Vec3.normalize ⟨0, 0, 0⟩ = ⟨0, 0, 0⟩ := by
    unfold Vec3.normalize Vec3.length Vec3.length_squared
    norm_num
  rw [hn0]
  have hcross0 : Vec3.cross ⟨0, 0, 0⟩ ⟨0, 1, 0⟩ = ⟨0, 0, 0⟩ := by
    unfold Vec3.cross
    norm_num
  rw [hcross0, hn0]
  rw [if_pos (by unfold Vec3.length_squared; norm_num)]
  refine ⟨rfl, rfl, ?_⟩
  unfold Vec3.length_squared
  norm_num

/-! ### Projection: inversion of a surviving splat and extent algebra -/

/-- Inversion of `projectSplat`: a surviving splat's record fields are the
source pipeline's expressions, and the culling guards all passed. -/
theorem projectSplat_some (camera : Camera) (w h i : ℕ) (splat : Splat)
    (p : ProjectedSplat)
    (hp : projectSplat camera w h i splat = some p) :
    0 < (project_covariance_to_2d (compute_3d_covariance splat.scale splat.rotation)
          camera (camera.world_to_view splat.position)
          (camera.focal_lengths w h).1 (camera.focal_lengths w h).2).1 ∧
    0 < (project_covariance_to_2d (compute_3d_covariance splat.scale splat.rotation)
          camera (camera.world_to_view splat.position)
          (camera.focal_lengths w h).1 (camera.focal_lengths w h).2).2.2 ∧
    p.radius_x = (compute_2d_gaussian_extent
      (project_covariance_to_2d (compute_3d_covariance splat.scale splat.rotation)
        camera (camera.world_to_view splat.position)
        (camera.focal_lengths w h).1 (camera.focal_lengths w h).2).1
      (project_covariance_to_2d (compute_3d_covariance splat.scale splat.rotation)
        camera (camera.world_to_view splat.position)
        (camera.focal_lengths w h).1 (camera.focal_lengths w h).2).2.1
      (project_covariance_to_2d (compute_3d_covariance splat.scale splat.rotation)
        camera (camera.world_to_view splat.position)
        (camera.focal_lengths w h).1 (camera.focal_lengths w h).2).2.2).1 ∧
    p.radius_y = (compute_2d_gaussian_extent
      (project_covariance_to_2d (compute_3d_covariance splat.scale splat.rotation)
        camera (camera.world_to_view splat.position)
        (camera.focal_lengths w h).1 (camera.focal_lengths w h).2).1
      (project_covariance_to_2d (compute_3d_covariance splat.scale splat.rotation)
        camera (camera.world_to_view splat.position)
        (camera.focal_lengths w h).1 (camera.focal_lengths w h).2).2.1
      (project_covariance_to_2d (compute_3d_covariance splat.scale splat.rotation)
        camera (camera.world_to_view splat.position)
        (camera.focal_lengths w h).1 (camera.focal_lengths w h).2).2.2).2 ∧
    p.depth = (camera.world_to_view splat.position).z ∧
    p.screen_x = (w : ℝ) * 0.5 + (camera.world_to_view splat.position).x *
      (camera.focal_lengths w h).1 * (1 / max (camera.world_to_view splat.position).z 1e-5) ∧
    p.screen_y = (h : ℝ) * 0.5 - (camera.world_to_view splat.position).y *
      (camera.focal_lengths w h).2 * (1 / max (camera.world_to_view splat.position).z 1e-5) := by
  unfold projectSplat at hp
  dsimp only at hp
  split_ifs at hp with h1 h2 h3 h4 h5
  rcases hinv : invert_2x2_covariance
      (project_covariance_to_2d (compute_3d_covariance splat.scale splat.rotation)
        camera (camera.world_to_view splat.position)
        (camera.focal_lengths w h).1 (camera.focal_lengths w h).2).1
      (project_covariance_to_2d (compute_3d_covariance splat.scale splat.rotation)
        camera (camera.world_to_view splat.position)
        (camera.focal_lengths w h).1 (camera.focal_lengths w h).2).2.1
      (project_covariance_to_2d (compute_3d_covariance splat.scale splat.rotation)
        camera (camera.world_to_view splat.position)
        (camera.focal_lengths w h).1 (camera.focal_lengths w h).2).2.2 with
    ht | ⟨ia, ib, ic⟩
  · rw [hinv] at hp
    exact absurd hp (by simp)
  · rw [hinv] at hp
    simp only [Option.some.injEq] at hp
    push_neg at h3
    refine ⟨h3.1, h3.2, ?_, ?_, ?_, ?_, ?_⟩ <;> rw [← hp]

/-- The extent computed by `compute_2d_gaussian_extent` is `4·√λ₁` where
`λ₁` is the largest root of the covariance's characteristic polynomial
`λ² − (a+c)·λ + (ac − b²)`. -/
theorem extent_is_top_eigenvalue (a b c : ℝ) (ha : 0 < a) (hc : 0 < c) :
    ∃ lam, (compute_2d_gaussian_extent a b c).1 =
        GAUSSIAN_SIGMA_CUTOFF * Real.sqrt lam ∧ 0 ≤ lam ∧
      lam * lam - (a + c) * lam + (a * c - b * b) = 0 ∧
      ∀ mu, mu * mu - (a + c) * mu + (a * c - b * b) = 0 → mu ≤ lam := by
  have hD0 : 0 ≤ (a + c) * (a + c) - 4 * (a * c - b * b) := by
    nlinarith [sq_nonneg (a - c), sq_nonneg b]
  have hsq : Real.sqrt ((a + c) * (a + c) - 4 * (a * c - b * b)) *
      Real.sqrt ((a + c) * (a + c) - 4 * (a * c - b * b)) =
      (a + c) * (a + c) - 4 * (a * c - b * b) := Real.mul_self_sqrt hD0
  have hsD : 0 ≤ Real.sqrt ((a + c) * (a + c) - 4 * (a * c - b * b)) :=
    Real.sqrt_nonneg _
  have hlam0 : 0 ≤ 0.5 * ((a + c) +
      Real.sqrt ((a + c) * (a + c) - 4 * (a * c - b * b))) := by nlinarith
  refine ⟨0.5 * ((a + c) + Real.sqrt ((a + c) * (a + c) - 4 * (a * c - b * b))),
    ?_, hlam0, ?_, ?_⟩
  · unfold compute_2d_gaussian_extent
    dsimp only
    rw [max_eq_left hD0, max_eq_left hlam0]
  · linear_combination (1 / 4) * hsq
  · intro mu hmu
    have h2 : (2 * mu - (a + c)) * (2 * mu - (a + c)) =
        (a + c) * (a + c) - 4 * (a * c - b * b) := by linear_combination 4 * hmu
    have h3 : 2 * mu - (a + c) ≤
        Real.sqrt ((a + c) * (a + c) - 4 * (a * c - b * b)) := by
      calc 2 * mu - (a + c) ≤ |2 * mu - (a + c)| := le_abs_self _
        _ = Real.sqrt ((2 * mu - (a + c)) * (2 * mu - (a + c))) :=
          (Real.sqrt_mul_self_eq_abs _).symm
        _ = Real.sqrt ((a + c) * (a + c) - 4 * (a * c - b * b)) := by rw [h2]
    linarith

/-- C8: every `ProjectedSplat` that `project_and_cull_splats` emits has
`radius_x = radius_y` (the screen bounding box is a square), and both equal
`4·√λ₁` with `λ₁` the largest eigenvalue — the largest characteristic root —
of the projected 2D covariance. -/
theorem projected_extent_square (camera : Camera) (w h i : ℕ) (splat : Splat)
    (p : ProjectedSplat)
    (hp : projectSplat camera w h i splat = some p) :
    p.radius_x = p.radius_y ∧
    ∃ lam, p.radius_x = GAUSSIAN_SIGMA_CUTOFF * Real.sqrt lam ∧ 0 ≤ lam ∧
      (lam * lam -
        ((project_covariance_to_2d (compute_3d_covariance splat.scale splat.rotation)
            camera (camera.world_to_view splat.position)
            (camera.focal_lengths w h).1 (camera.focal_lengths w h).2).1 +
         (project_covariance_to_2d (compute_3d_covariance splat.scale splat.rotation)
            camera (camera.world_to_view splat.position)
            (camera.focal_lengths w h).1 (camera.focal_lengths w h).2).2.2) * lam +
        ((project_covariance_to_2d (compute_3d_covariance splat.scale splat.rotation)
            camera (camera.world_to_view splat.position)
            (camera.focal_lengths w h).1 (camera.focal_lengths w h).2).1 *
         (project_covariance_to_2d (compute_3d_covariance splat.scale splat.rotation)
            camera (camera.world_to_view splat.position)
            (camera.focal_lengths w h).1 (camera.focal_lengths w h).2).2.2 -
         (project_covariance_to_2d (compute_3d_covariance splat.scale splat.rotation)
            camera (camera.world_to_view splat.position)
            (camera.focal_lengths w h).1 (camera.focal_lengths w h).2).2.1 *
         (project_covariance_to_2d (compute_3d_covariance splat.scale splat.rotation)
            camera (camera.world_to_view splat.position)
            (camera.focal_lengths w h).1 (camera.focal_lengths w h).2).2.1) = 0) ∧
      ∀ mu, mu * mu -
        ((project_covariance_to_2d (compute_3d_covariance splat.scale splat.rotation)
            camera (camera.world_to_view splat.position)
            (camera.focal_lengths w h).1 (camera.focal_lengths w h).2).1 +
         (project_covariance_to_2d (compute_3d_covariance splat.scale splat.rotation)
            camera (camera.world_to_view splat.position)
            (camera.focal_lengths w h).1 (camera.focal_lengths w h).2).2.2) * mu +
        ((project_covariance_to_2d (compute_3d_covariance splat.scale splat.rotation)
            camera (camera.world_to_view splat.position)
            (camera.focal_lengths w h).1 (camera.focal_lengths w h).2).1 *
         (project_covariance_to_2d (compute_3d_covariance splat.scale splat.rotation)
            camera (camera.world_to_view splat.position)
            (camera.focal_lengths w h).1 (camera.focal_lengths w h).2).2.2 -
         (project_covariance_to_2d (compute_3d_covariance splat.scale splat.rotation)
            camera (camera.world_to_view splat.position)
            (camera.focal_lengths w h).1 (camera.focal_lengths w h).2).2.1 *
         (project_covariance_to_2d (compute_3d_covariance splat.scale splat.rotation)
            camera (camera.world_to_view splat.position)
            (camera.focal_lengths w h).1 (camera.focal_lengths w h).2).2.1) = 0 →
        mu ≤ lam := by
  obtain ⟨ha, hc, hrx, hry, _, _, _⟩ := projectSplat_some camera w h i splat p hp
  obtain ⟨lam, hext, hlam0, hchar, hmax⟩ :=
    extent_is_top_eigenvalue _ _ _ ha hc
  refine ⟨?_, lam, ?_, hlam0, hchar, hmax⟩
  · rw [hrx, hry]
    rfl
  · rw [hrx, hext]

/-! ### The on-axis camera -/

/-- `look_at_target` from `(0,0,d)` (any `d > 0`) to the origin yields the
canonical on-axis camera: `forward = (0,0,-1)`, `right = (1,0,0)`,
`up = (0,1,0)`, with `Camera::new`'s `fov`, `near` and `far`. -/
theorem axis_camera_eq (d yaw0 pitch0 : ℝ) (hd : 0 < d) :
    look_at_target (Camera.new ⟨0, 0, d⟩ yaw0 pitch0) ⟨0, 0, 0⟩ =
      { position := ⟨0, 0, d⟩, forward := ⟨0, 0, -1⟩, right := ⟨1, 0, 0⟩,
        up := ⟨0, 1, 0⟩, yaw := atan2 (-1) 0, pitch := 0,
        fov := Real.pi / 3, near := 0.1, far := 1000 } := by
  have hdne : d ≠ 0 := ne_of_gt hd
  have hto : Vec3.normalize (Vec3.sub ⟨0, 0, 0⟩
      (Camera.new ⟨0, 0, d⟩ yaw0 pitch0).position) = ⟨0, 0, -1⟩ := by
    show Vec3.normalize (Vec3.sub ⟨0, 0, 0⟩ ⟨0, 0, d⟩) = ⟨0, 0, -1⟩
    have hsub : Vec3.sub ⟨0, 0, 0⟩ ⟨0, 0, d⟩ = ⟨0, 0, -d⟩ := by
      unfold Vec3.sub
      norm_num
    rw [hsub]
    unfold Vec3.normalize Vec3.length Vec3.length_squared
    have hls : (0 : ℝ) * 0 + 0 * 0 + -d * -d = d * d := by ring
    rw [hls, Real.sqrt_mul_self hd.le]
    simp [hdne, neg_div]
  have hz0 : (⟨0, -1⟩ : ℂ) ≠ 0 := by
    intro hcon
    have := congrArg Complex.im hcon
    norm_num at this
  have habs : Complex.abs ⟨0, -1⟩ = 1 := by
    simp [Complex.abs_apply, Complex.normSq_mk]
  have hcos : Real.cos (atan2 (-1) 0) = 0 := by
    unfold atan2
    rw [Complex.cos_arg hz0, habs]
    norm_num
  have hsin : Real.sin (atan2 (-1) 0) = -1 := by
    unfold atan2
    rw [Complex.sin_arg, habs]
    norm_num
  have hn001 : Vec3.normalize ⟨0, 0, -1⟩ = ⟨0, 0, -1⟩ := by
    unfold Vec3.normalize Vec3.length Vec3.length_squared
    norm_num
  have hn100 : Vec3.normalize ⟨1, 0, 0⟩ = ⟨1, 0, 0⟩ := by
    unfold Vec3.normalize Vec3.length Vec3.length_squared
    norm_num
  have hn010 : Vec3.normalize ⟨0, 1, 0⟩ = ⟨0, 1, 0⟩ := by
    unfold Vec3.normalize Vec3.length Vec3.length_squared
    norm_num
  unfold look_at_target
  dsimp only
  rw [hto]
  rw [if_neg (by unfold Vec3.length_squared; norm_num)]
  have hrc : rclamp (⟨0, 0, -1⟩ : Vec3).y (-1) 1 = 0 := by
    show rclamp 0 (-1) 1 = 0
    unfold rclamp
    norm_num
  unfold Camera.update_vectors
  dsimp only
  rw [hrc, Real.arcsin_zero, Real.cos_zero, Real.sin_zero]
  rw [show atan2 (⟨0, 0, -1⟩ : Vec3).z (⟨0, 0, -1⟩ : Vec3).x = atan2 (-1) 0 from rfl]
  rw [hcos, hsin]
  rw [show (⟨0 * 1, 0, -1 * 1⟩ : Vec3) = ⟨0, 0, -1⟩ by norm_num]
  rw [hn001]
  rw [show Vec3.cross ⟨0, 0, -1⟩ ⟨0, 1, 0⟩ = ⟨1, 0, 0⟩ by unfold Vec3.cross; norm_num]
  rw [hn100]
  rw [show Vec3.cross ⟨1, 0, 0⟩ ⟨0, 0, -1⟩ = ⟨0, 1, 0⟩ by unfold Vec3.cross; norm_num]
  rw [hn010]
  rw [if_neg (by unfold Vec3.length_squared; norm_num)]
  rfl

/-- The on-axis view position: the origin seen from `(0,0,d)` with the
canonical basis sits at view-space `(0, 0, d)`. -/
theorem axis_world_to_view (d : ℝ) :
    Camera.world_to_view
      { position := ⟨0, 0, d⟩, forward := ⟨0, 0, -1⟩, right := ⟨1, 0, 0⟩,
        up := ⟨0, 1, 0⟩, yaw := atan2 (-1) 0, pitch := 0,
        fov := Real.pi / 3, near := 0.1, far := 1000 } ⟨0, 0, 0⟩ = ⟨0, 0, d⟩ := by
  unfold Camera.world_to_view Vec3.sub Vec3.dot
  norm_num

/-- On the camera axis the 2D covariance separates into a `1/d²` scaling of
a distance-independent matrix plus the `10⁻³` diagonal regularizer. -/
theorem project_cov_on_axis (cov3 : Mat3) (cam : Camera) (d fx fy : ℝ)
    (hd : 1e-4 ≤ d) :
    project_covariance_to_2d cov3 cam ⟨0, 0, d⟩ fx fy =
      (fx * fx * (mat3_mul (mat3_mul cam.view_rotation cov3)
          (mat3_transpose cam.view_rotation)) 0 0 / (d * d) + 1e-3,
       fx * fy * (mat3_mul (mat3_mul cam.view_rotation cov3)
          (mat3_transpose cam.view_rotation)) 0 1 / (d * d),
       fy * fy * (mat3_mul (mat3_mul cam.view_rotation cov3)
          (mat3_transpose cam.view_rotation)) 1 1 / (d * d) + 1e-3) := by
  have hdne : d ≠ 0 := by
    intro h
    rw [h] at hd
    norm_num at hd
  unfold project_covariance_to_2d
  dsimp only
  rw [max_eq_left hd]
  simp only [Matrix.cons_val_zero, Matrix.cons_val_one, Matrix.cons_val_two,
    Matrix.head_cons, Matrix.tail_cons]
  simp only [Prod.mk.injEq]
  refine ⟨?_, ?_, ?_⟩ <;> field_simp <;> ring

/-- Closed form of the extent: `4·√(max λ₁ 0)` with
`λ₁ = ((a+c) + √((a−c)² + 4b²))/2`. -/
theorem extent_formula (a b c : ℝ) :
    (compute_2d_gaussian_extent a b c).1 =
      GAUSSIAN_SIGMA_CUTOFF * Real.sqrt (max (0.5 * ((a + c) +
        Real.sqrt ((a - c) * (a - c) + 4 * (b * b)))) 0) := by
  unfold compute_2d_gaussian_extent
  dsimp only
  rw [show (a + c) * (a + c) - 4 * (a * c - b * b) =
    (a - c) * (a - c) + 4 * (b * b) from by ring]
  rw [show max ((a - c) * (a - c) + 4 * (b * b)) 0 =
    (a - c) * (a - c) + 4 * (b * b) from max_eq_left
      (by nlinarith [mul_self_nonneg (a - c), mul_self_nonneg b])]

/-- On the axis, `extent · d = 4·√(μ + 10⁻³·d²)` where `μ` is the
distance-free top eigenvalue of the unregularized covariance. -/
theorem extent_on_axis (A B C d : ℝ) (hd : 0 < d)
    (hmu : 0 ≤ 0.5 * ((A + C) + Real.sqrt ((A - C) * (A - C) + 4 * (B * B)))) :
    (compute_2d_gaussian_extent (A / (d * d) + 1e-3) (B / (d * d))
        (C / (d * d) + 1e-3)).1 * d =
      GAUSSIAN_SIGMA_CUTOFF * Real.sqrt
        (0.5 * ((A + C) + Real.sqrt ((A - C) * (A - C) + 4 * (B * B))) +
          1e-3 * (d * d)) := by
  have hd2 : (0 : ℝ) < d * d := mul_pos hd hd
  have hdne : d ≠ 0 := ne_of_gt hd
  have hX0 : (0 : ℝ) ≤ (A - C) * (A - C) + 4 * (B * B) := by
    nlinarith [mul_self_nonneg (A - C), mul_self_nonneg B]
  rw [extent_formula]
  rw [show ((A / (d * d) + 1e-3) - (C / (d * d) + 1e-3)) *
        ((A / (d * d) + 1e-3) - (C / (d * d) + 1e-3)) +
      4 * (B / (d * d) * (B / (d * d))) =
      ((A - C) * (A - C) + 4 * (B * B)) / ((d * d) * (d * d)) from by
    field_simp
    try ring]
  rw [Real.sqrt_div hX0, Real.sqrt_mul_self hd2.le]
  rw [show 0.5 * ((A / (d * d) + 1e-3 + (C / (d * d) + 1e-3)) +
        Real.sqrt ((A - C) * (A - C) + 4 * (B * B)) / (d * d)) =
      (0.5 * ((A + C) + Real.sqrt ((A - C) * (A - C) + 4 * (B * B))) +
        1e-3 * (d * d)) / (d * d) from by
    field_simp
    try ring]
  rw [show max ((0.5 * ((A + C) + Real.sqrt ((A - C) * (A - C) + 4 * (B * B))) +
        1e-3 * (d * d)) / (d * d)) 0 =
      (0.5 * ((A + C) + Real.sqrt ((A - C) * (A - C) + 4 * (B * B))) +
        1e-3 * (d * d)) / (d * d) from
    max_eq_left (div_nonneg (by nlinarith) hd2.le)]
  rw [Real.sqrt_div (by nlinarith), Real.sqrt_mul_self hd.le]
  field_simp

/-- Abstract radius bound: when the regularizer `10⁻³·d²` is at most `μ/50`,
the extent times `d` lies within 1% above `4·√μ`. -/
theorem radius_scaling_bound (A B C d mu : ℝ) (hd : 0 < d)
    (hmu_eq : mu = 0.5 * ((A + C) + Real.sqrt ((A - C) * (A - C) + 4 * (B * B))))
    (hreg : 1e-3 * (d * d) ≤ mu / 50) :
    4 * Real.sqrt mu ≤
      (compute_2d_gaussian_extent (A / (d * d) + 1e-3) (B / (d * d))
        (C / (d * d) + 1e-3)).1 * d ∧
    (compute_2d_gaussian_extent (A / (d * d) + 1e-3) (B / (d * d))
        (C / (d * d) + 1e-3)).1 * d ≤ 1.01 * (4 * Real.sqrt mu) := by
  have hd2 : (0 : ℝ) < d * d := mul_pos hd hd
  have hmu0 : 0 ≤ mu := by nlinarith
  have hext := extent_on_axis A B C d hd (hmu_eq ▸ hmu0)
  rw [← hmu_eq] at hext
  have h4 : GAUSSIAN_SIGMA_CUTOFF = (4 : ℝ) := by norm_num [GAUSSIAN_SIGMA_CUTOFF]
  rw [h4] at hext
  rw [hext]
  constructor
  · have hmono := Real.sqrt_le_sqrt (by nlinarith : mu ≤ mu + 1e-3 * (d * d))
    linarith
  · have h1 : mu + 1e-3 * (d * d) ≤ 1.0201 * mu := by nlinarith
    have h2 : Real.sqrt (mu + 1e-3 * (d * d)) ≤ 1.01 * Real.sqrt mu := by
      calc Real.sqrt (mu + 1e-3 * (d * d)) ≤ Real.sqrt (1.0201 * mu) :=
            Real.sqrt_le_sqrt h1
        _ = Real.sqrt 1.0201 * Real.sqrt mu := Real.sqrt_mul (by norm_num) mu
        _ = 1.01 * Real.sqrt mu := by
            rw [show (1.0201 : ℝ) = 1.01 ^ 2 from by norm_num,
              Real.sqrt_sq (by norm_num)]
    linarith

/-- Focal lengths of the canonical `fov = π/3` camera at 64×64:
`fx = fy = 32·√3`. -/
theorem canonical_focal_64 :
    canonicalCamera.focal_lengths 64 64 = (32 * Real.sqrt 3, 32 * Real.sqrt 3) := by
  have h3 : Real.sqrt 3 * Real.sqrt 3 = 3 := Real.mul_self_sqrt (by norm_num)
  have h3nn : (0 : ℝ) ≤ Real.sqrt 3 := Real.sqrt_nonneg 3
  have h3pos : (0 : ℝ) < Real.sqrt 3 := by nlinarith
  have h3ne : Real.sqrt 3 ≠ 0 := ne_of_gt h3pos
  unfold Camera.focal_lengths canonicalCamera
  dsimp only
  rw [show Real.pi / 3 * 0.5 = Real.pi / 6 from by ring, Real.tan_pi_div_six]
  rw [show max (1 / Real.sqrt 3) 1e-6 = 1 / Real.sqrt 3 from max_eq_left (by
    rw [le_div_iff h3pos]
    nlinarith)]
  norm_num
  field_simp
  try ring

/-- View-rotated covariance of an isotropic splat: the diagonal entries are
the squared (clamped) scale. -/
theorem iso_cv00 (s : ℝ) :
    mat3_mul (mat3_mul canonicalViewRot
      (compute_3d_covariance ⟨s, s, s⟩ ⟨1, 0, 0, 0⟩))
      (mat3_transpose canonicalViewRot) 0 0 = max s 1e-4 * max s 1e-4 := by
  unfold compute_3d_covariance quat_to_rotation_matrix canonicalViewRot
    mat3_mul mat3_transpose
  dsimp only
  simp only [Matrix.cons_val_zero, Matrix.cons_val_one, Matrix.cons_val_two,
    Matrix.head_cons, Matrix.tail_cons]
  ring

/-- View-rotated covariance of an isotropic splat: the off-diagonal entry
vanishes. -/
theorem iso_cv01 (s : ℝ) :
    mat3_mul (mat3_mul canonicalViewRot
      (compute_3d_covariance ⟨s, s, s⟩ ⟨1, 0, 0, 0⟩))
      (mat3_transpose canonicalViewRot) 0 1 = 0 := by
  unfold compute_3d_covariance quat_to_rotation_matrix canonicalViewRot
    mat3_mul mat3_transpose
  dsimp only
  simp only [Matrix.cons_val_zero, Matrix.cons_val_one, Matrix.cons_val_two,
    Matrix.head_cons, Matrix.tail_cons]
  ring

/-- View-rotated covariance of an isotropic splat: second diagonal entry. -/
theorem iso_cv11 (s : ℝ) :
    mat3_mul (mat3_mul canonicalViewRot
      (compute_3d_covariance ⟨s, s, s⟩ ⟨1, 0, 0, 0⟩))
      (mat3_transpose canonicalViewRot) 1 1 = max s 1e-4 * max s 1e-4 := by
  unfold compute_3d_covariance quat_to_rotation_matrix canonicalViewRot
    mat3_mul mat3_transpose
  dsimp only
  simp only [Matrix.cons_val_zero, Matrix.cons_val_one, Matrix.cons_val_two,
    Matrix.head_cons, Matrix.tail_cons]
  ring

/-- Extent of an isotropic 2D covariance `diag(A, A)`: `4·√A` on both axes. -/
theorem extent_iso (A : ℝ) (hA : 0 ≤ A) :
    compute_2d_gaussian_extent A 0 A = (4 * Real.sqrt A, 4 * Real.sqrt A) := by
  unfold compute_2d_gaussian_extent GAUSSIAN_SIGMA_CUTOFF
  dsimp only
  rw [show (A + A) * (A + A) - 4 * (A * A - 0 * 0) = 0 from by ring]
  rw [show max (0 : ℝ) 0 = 0 from max_self 0, Real.sqrt_zero]
  rw [show 0.5 * (A + A + 0) = A from by ring]
  rw [max_eq_left hA]
  norm_num

/-- Inverse of an isotropic 2D covariance `diag(A, A)` for `A ≥ 10⁻³`. -/
theorem invert_iso (A : ℝ) (hA : 1e-3 ≤ A) :
    invert_2x2_covariance A 0 A = some (1 / A, 0, 1 / A) := by
  have hA0 : (0 : ℝ) < A := by linarith
  have hAne : A ≠ 0 := ne_of_gt hA0
  unfold invert_2x2_covariance
  dsimp only
  rw [if_neg (by
    rw [abs_of_nonneg (by nlinarith : (0 : ℝ) ≤ A * A - 0 * 0)]
    push_neg
    nlinarith)]
  simp only [Option.some.injEq, Prod.mk.injEq]
  refine ⟨?_, ?_, ?_⟩ <;> field_simp

/-- The distance-free top eigenvalue of an isotropic splat at 64×64:
`μ = 3072·(max s 10⁻⁴)²`. -/
theorem onAxisTopEig_iso (s : ℝ) :
    onAxisTopEig (isoSplat s) 64 64 = 3072 * (max s 1e-4 * max s 1e-4) := by
  have h3 : Real.sqrt 3 * Real.sqrt 3 = 3 := Real.mul_self_sqrt (by norm_num)
  unfold onAxisTopEig isoSplat
  dsimp only
  rw [canonical_focal_64]
  dsimp only
  rw [iso_cv00, iso_cv01, iso_cv11]
  rw [show 32 * Real.sqrt 3 * (32 * Real.sqrt 3) * (max s 1e-4 * max s 1e-4) -
      32 * Real.sqrt 3 * (32 * Real.sqrt 3) * (max s 1e-4 * max s 1e-4) = 0 from by ring]
  rw [show 32 * Real.sqrt 3 * (32 * Real.sqrt 3) * 0 = (0 : ℝ) from by ring]
  rw [show (0 : ℝ) * 0 + 4 * (0 * 0) = 0 from by ring, Real.sqrt_zero]
  nlinarith [h3]

/-- The focal lengths of the on-axis camera record coincide with the
canonical camera's (both have `fov = π/3`). -/
theorem axis_focal_64 (d : ℝ) :
    Camera.focal_lengths
      { position := ⟨0, 0, d⟩, forward := ⟨0, 0, -1⟩, right := ⟨1, 0, 0⟩,
        up := ⟨0, 1, 0⟩, yaw := atan2 (-1) 0, pitch := 0,
        fov := Real.pi / 3, near := 0.1, far := 1000 } 64 64 =
    (32 * Real.sqrt 3, 32 * Real.sqrt 3) := canonical_focal_64

/-- The view rotation of the on-axis camera record is the canonical one. -/
theorem axis_view_rot (d : ℝ) :
    Camera.view_rotation
      { position := ⟨0, 0, d⟩, forward := ⟨0, 0, -1⟩, right := ⟨1, 0, 0⟩,
        up := ⟨0, 1, 0⟩, yaw := atan2 (-1) 0, pitch := 0,
        fov := Real.pi / 3, near := 0.1, far := 1000 } = canonicalViewRot := by
  unfold Camera.view_rotation canonicalViewRot
  rfl

/-- Full evaluation of `projectSplat` for an isotropic splat at the origin
viewed on-axis from distance `d` at 64×64, assuming the splat survives the
minimum-radius cull. -/
theorem projectSplat_axis_iso (s d : ℝ) (hs : 1e-4 ≤ s)
    (hd0 : (0.1 : ℝ) < d) (hd1 : d < 1000)
    (hr : (0.3 : ℝ) ≤ 4 * Real.sqrt (3072 * (s * s) / (d * d) + 1e-3)) :
    projectSplat (look_at_target (Camera.new ⟨0, 0, d⟩ 0 0) ⟨0, 0, 0⟩)
      64 64 0 (isoSplat s) =
    some { screen_x := 32, screen_y := 32, depth := d,
           radius_x := 4 * Real.sqrt (3072 * (s * s) / (d * d) + 1e-3),
           radius_y := 4 * Real.sqrt (3072 * (s * s) / (d * d) + 1e-3),
           color := (255, 0, 0), opacity := 1,
           inv_cov_a := 1 / (3072 * (s * s) / (d * d) + 1e-3),
           inv_cov_b := 0,
           inv_cov_c := 1 / (3072 * (s * s) / (d * d) + 1e-3),
           original_index := 0 } := by
  have hdp : (0 : ℝ) < d := by linarith
  have hd2 : (0 : ℝ) < d * d := mul_pos hdp hdp
  have hsA : (0 : ℝ) ≤ 3072 * (s * s) / (d * d) := by positivity
  have hA3 : (1e-3 : ℝ) ≤ 3072 * (s * s) / (d * d) + 1e-3 := by linarith
  have hA0 : (0 : ℝ) ≤ 3072 * (s * s) / (d * d) + 1e-3 := by linarith
  have hsq : (0 : ℝ) ≤ Real.sqrt (3072 * (s * s) / (d * d) + 1e-3) :=
    Real.sqrt_nonneg _
  rw [axis_camera_eq d 0 0 hdp]
  unfold projectSplat
  dsimp only [isoSplat]
  rw [axis_world_to_view d, axis_focal_64 d]
  dsimp only
  rw [project_cov_on_axis _ _ d _ _ (by linarith : (1e-4 : ℝ) ≤ d)]
  rw [axis_view_rot d]
  rw [iso_cv00 s, iso_cv01 s, iso_cv11 s]
  rw [max_eq_left hs]
  rw [show 32 * Real.sqrt 3 * (32 * Real.sqrt 3) = (3072 : ℝ) from by
    linear_combination (1024 : ℝ) * Real.mul_self_sqrt (show (0 : ℝ) ≤ 3 from by norm_num)]
  rw [show (3072 : ℝ) * 0 / (d * d) = 0 from by rw [mul_zero, zero_div]]
  dsimp only
  rw [extent_iso _ hA0]
  dsimp only
  rw [invert_iso _ hA3]
  dsimp only
  split_ifs with g1 g2 g3 g4 g5
  · exact absurd g1 (by push_neg; exact ⟨by linarith, by linarith⟩)
  · exact absurd g2 (by push_neg; norm_num [BROAD_MARGIN])
  · exact absurd g3 (by push_neg; exact ⟨by linarith, by linarith⟩)
  · exact absurd g4 (by
      simp only [MIN_SPLAT_RADIUS]
      push_neg
      exact ⟨hr, hr⟩)
  · exact absurd g5 (by
      push_neg
      push_cast
      refine ⟨by nlinarith, by nlinarith, by nlinarith, by nlinarith⟩)
  · simp only [Option.some.injEq, ProjectedSplat.mk.injEq]
    norm_num

/-- C3 (amended): an on-axis splat surviving culling projects to the screen
center with `depth = d`, and its square radii scale inversely with `d`
within 1% whenever the `10⁻³` diagonal regularizer contributes at most 2%
of the distance-free top eigenvalue `μ` (`10⁻³·d² ≤ μ/50`); without that
bound the regularizer breaks the inverse scaling by more than 1%. -/
theorem on_axis_projection (d yaw0 pitch0 : ℝ) (splat : Splat) (w h i : ℕ)
    (p : ProjectedSplat) (hpos : splat.position = ⟨0, 0, 0⟩)
    (hd0 : (0.1 : ℝ) < d) (hd1 : d < 1000)
    (hp : projectSplat (look_at_target (Camera.new ⟨0, 0, d⟩ yaw0 pitch0) ⟨0, 0, 0⟩)
      w h i splat = some p) :
    p.screen_x = (w : ℝ) / 2 ∧ p.screen_y = (h : ℝ) / 2 ∧ p.depth = d ∧
    p.radius_x = p.radius_y ∧
    (1e-3 * (d * d) ≤ onAxisTopEig splat w h / 50 →
      4 * Real.sqrt (onAxisTopEig splat w h) ≤ p.radius_x * d ∧
      p.radius_x * d ≤ 1.01 * (4 * Real.sqrt (onAxisTopEig splat w h))) := by
  have hdpos : (0 : ℝ) < d := lt_trans (by norm_num) hd0
  have hd2 : (0 : ℝ) < d * d := mul_pos hdpos hdpos
  rw [axis_camera_eq d yaw0 pitch0 hdpos] at hp
  obtain ⟨ha, hc, hrx, hry, hdepth, hsx, hsy⟩ :=
    projectSplat_some _ w h i splat p hp
  rw [hpos, axis_world_to_view d] at hrx hry hdepth hsx hsy
  have hflc : Camera.focal_lengths
      { position := ⟨0, 0, d⟩, forward := ⟨0, 0, -1⟩, right := ⟨1, 0, 0⟩,
        up := ⟨0, 1, 0⟩, yaw := atan2 (-1) 0, pitch := 0,
        fov := Real.pi / 3, near := 0.1, far := 1000 } w h =
      canonicalCamera.focal_lengths w h := rfl
  have hvr : Camera.view_rotation
      { position := ⟨0, 0, d⟩, forward := ⟨0, 0, -1⟩, right := ⟨1, 0, 0⟩,
        up := ⟨0, 1, 0⟩, yaw := atan2 (-1) 0, pitch := 0,
        fov := Real.pi / 3, near := 0.1, far := 1000 } = canonicalViewRot := rfl
  rw [project_cov_on_axis _ _ d _ _ (by linarith : (1e-4 : ℝ) ≤ d)] at hrx hry
  rw [hflc] at hrx hry hsx hsy
  rw [hvr] at hrx hry
  refine ⟨?_, ?_, ?_, ?_, ?_⟩
  · rw [hsx]
    show (w : ℝ) * 0.5 + 0 * _ * _ = (w : ℝ) / 2
    ring
  · rw [hsy]
    show (h : ℝ) * 0.5 - 0 * _ * _ = (h : ℝ) / 2
    ring
  · rw [hdepth]
  · rw [hrx, hry]
    rfl
  · intro hreg
    dsimp only at hrx
    rw [hrx]
    exact radius_scaling_bound _ _ _ d _ hdpos rfl hreg

/-- C3 witness: the on-axis projection theorem applied at `d = 5` to the
unit isotropic splat at 64×64, with every hypothesis discharged. -/
theorem on_axis_projection_witness :
    (isoSplat 1).position = (⟨0, 0, 0⟩ : Vec3) ∧ (0.1 : ℝ) < 5 ∧ (5 : ℝ) < 1000 ∧
    ∃ p : ProjectedSplat,
      projectSplat (look_at_target (Camera.new ⟨0, 0, 5⟩ 0 0) ⟨0, 0, 0⟩)
        64 64 0 (isoSplat 1) = some p ∧
      p.screen_x = ((64 : ℕ) : ℝ) / 2 ∧ p.screen_y = ((64 : ℕ) : ℝ) / 2 ∧
      p.depth = 5 ∧ p.radius_x = p.radius_y ∧
      (1e-3 * (5 * 5) ≤ onAxisTopEig (isoSplat 1) 64 64 / 50 →
        4 * Real.sqrt (onAxisTopEig (isoSplat 1) 64 64) ≤ p.radius_x * 5 ∧
        p.radius_x * 5 ≤ 1.01 * (4 * Real.sqrt (onAxisTopEig (isoSplat 1) 64 64))) := by
  have hx : (0 : ℝ) ≤ 3072 * ((1 : ℝ) * 1) / (5 * 5) + 1e-3 := by norm_num
  have hr : (0.3 : ℝ) ≤ 4 * Real.sqrt (3072 * ((1 : ℝ) * 1) / (5 * 5) + 1e-3) := by
    nlinarith [Real.mul_self_sqrt hx, Real.sqrt_nonneg (3072 * ((1 : ℝ) * 1) / (5 * 5) + 1e-3)]
  have hp := projectSplat_axis_iso 1 5 (by norm_num) (by norm_num) (by norm_num) hr
  exact ⟨rfl, by norm_num, by norm_num, _, hp,
    on_axis_projection 5 0 0 (isoSplat 1) 64 64 0 _ rfl (by norm_num) (by norm_num) hp⟩

/-- C3 counterexample: the unamended claim ("radii scale inversely with `d`
within 1%") fails.  The isotropic splat with `scale = √(1.85/3072)` survives
culling both at `d = 1` and at `d = 20` (where its radius is exactly the
0.3 cutoff), yet `radius(20)·20 = 6` exceeds `1.01·(radius(1)·1) ≈ 5.50`:
the `10⁻³` regularizer added after the `1/d²` scaling breaks the inverse
law by more than 10%. -/
theorem on_axis_radii_counterexample :
    ∃ p q : ProjectedSplat,
      projectSplat (look_at_target (Camera.new ⟨0, 0, 1⟩ 0 0) ⟨0, 0, 0⟩) 64 64 0
        (isoSplat (Real.sqrt (1.85 / 3072))) = some p ∧
      projectSplat (look_at_target (Camera.new ⟨0, 0, 20⟩ 0 0) ⟨0, 0, 0⟩) 64 64 0
        (isoSplat (Real.sqrt (1.85 / 3072))) = some q ∧
      1.01 * (p.radius_x * 1) < q.radius_x * 20 := by
  have hss : Real.sqrt (1.85 / 3072) * Real.sqrt (1.85 / 3072) = 1.85 / 3072 :=
    Real.mul_self_sqrt (by norm_num)
  have hs : (1e-4 : ℝ) ≤ Real.sqrt (1.85 / 3072) := by
    nlinarith [hss, Real.sqrt_nonneg (1.85 / 3072)]
  have hA1 : 3072 * (Real.sqrt (1.85 / 3072) * Real.sqrt (1.85 / 3072)) /
      ((1 : ℝ) * 1) + 1e-3 = 1.851 := by
    rw [hss]
    norm_num
  have hA20 : 3072 * (Real.sqrt (1.85 / 3072) * Real.sqrt (1.85 / 3072)) /
      ((20 : ℝ) * 20) + 1e-3 = 0.005625 := by
    rw [hss]
    norm_num
  have h20v : Real.sqrt 0.005625 = 0.075 := by
    rw [show (0.005625 : ℝ) = 0.075 ^ 2 from by norm_num,
      Real.sqrt_sq (by norm_num)]
  have hr1 : (0.3 : ℝ) ≤ 4 * Real.sqrt (3072 *
      (Real.sqrt (1.85 / 3072) * Real.sqrt (1.85 / 3072)) / ((1 : ℝ) * 1) + 1e-3) := by
    rw [hA1]
    nlinarith [Real.mul_self_sqrt (show (0 : ℝ) ≤ 1.851 from by norm_num),
      Real.sqrt_nonneg (1.851 : ℝ)]
  have hr20 : (0.3 : ℝ) ≤ 4 * Real.sqrt (3072 *
      (Real.sqrt (1.85 / 3072) * Real.sqrt (1.85 / 3072)) / ((20 : ℝ) * 20) + 1e-3) := by
    rw [hA20, h20v]
    norm_num
  have hp := projectSplat_axis_iso (Real.sqrt (1.85 / 3072)) 1 hs
    (by norm_num) (by norm_num) hr1
  have hq := projectSplat_axis_iso (Real.sqrt (1.85 / 3072)) 20 hs
    (by norm_num) (by norm_num) hr20
  refine ⟨_, _, hp, hq, ?_⟩
  dsimp only
  rw [hA1, hA20, h20v]
  nlinarith [Real.mul_self_sqrt (show (0 : ℝ) ≤ 1.851 from by norm_num),
    Real.sqrt_nonneg (1.851 : ℝ), sq_nonneg (Real.sqrt 1.851 - 1.4)]

/-- C8 witness: the square-bounding-box theorem applied to the unit
isotropic splat projected on-axis from `d = 5` at 64×64. -/
theorem projected_extent_square_witness :
    ∃ p : ProjectedSplat,
      projectSplat (look_at_target (Camera.new ⟨0, 0, 5⟩ 0 0) ⟨0, 0, 0⟩)
        64 64 0 (isoSplat 1) = some p ∧
      p.radius_x = p.radius_y := by
  have hx : (0 : ℝ) ≤ 3072 * ((1 : ℝ) * 1) / (5 * 5) + 1e-3 := by norm_num
  have hr : (0.3 : ℝ) ≤ 4 * Real.sqrt (3072 * ((1 : ℝ) * 1) / (5 * 5) + 1e-3) := by
    nlinarith [Real.mul_self_sqrt hx, Real.sqrt_nonneg (3072 * ((1 : ℝ) * 1) / (5 * 5) + 1e-3)]
  have hp := projectSplat_axis_iso 1 5 (by norm_num) (by norm_num) (by norm_num) hr
  exact ⟨_, hp,
    (projected_extent_square (look_at_target (Camera.new ⟨0, 0, 5⟩ 0 0) ⟨0, 0, 0⟩)
      64 64 0 (isoSplat 1) _ hp).1⟩

end Tortuise
